import Mathlib

/-!
Verification development for SCMP (Semantic Clustered Memory Protocol) v2.1.0.

This file is a shallow embedding of the tiered memory engine implemented in the
repository's main module (the `SCMP` class, together with `MemoryRecord`,
`IndexedDBStore` and the codec utilities).  Conventions used throughout:

* JavaScript numbers are modelled as real numbers (`ℝ`); timestamps returned by
  `Date.now()` are integer milliseconds and are modelled as `ℤ` parameters named
  `now` (one per operation, since an operation reads the clock while it runs).
* External collaborators (the Ollama encoder/generator, WebCrypto hashing, the
  EdgeVec ANN search procedure, the `clusterfck` hierarchical clusterer and the
  bit-level float16 codec) are capability parameters collected in `Env`,
  exactly as the specification's §4.3/§6 describe them as injected interfaces.
* The five IndexedDB stores are modelled as association lists keyed by the
  record id (the store's `keyPath`), with `put` as upsert.  Of the `meta` store
  only the `journal_counter` row is modelled; the `salt` and `encryption_key`
  rows are written only during first initialization, which no modelled
  operation touches.
* Fallible store/encoder operations are modelled by fault-injection flags
  (`Faults`): an operation throws exactly when its flag is set.  Operations
  that rethrow are modelled with `Except`; a thrown error makes the resulting
  state unobservable to callers (every caller in the source either rethrows or
  catches without reading further state), so the error branch carries no state.
* `setImmediate(...)` callbacks (consolidation trigger, journal rotation
  trigger, batch save, deferred compaction) are scheduled on the executor and
  run after the current operation; they are not part of an operation's own
  state transition.
-/

namespace SCMP

/-- Storage tiers of a record (`currentTier` field values). -/
inductive Tier where
  | HOT
  | WARM
  | COLD
  | UNKNOWN
deriving DecidableEq

/-- HALF_LIFE used by `MemoryRecord.decay_score`: 14 days in milliseconds. -/
def halfLifeMs : ℝ := 14 * 24 * 60 * 60 * 1000

/-- SCALE used by `MemoryRecord.temporal_weight`: 7 days in milliseconds. -/
def scaleMs : ℝ := 7 * 24 * 60 * 60 * 1000

/-- `quantizeInt8`: per component `clamp(round(v * 127), -128, 127)` (a
JavaScript number array in, an integer-valued number array out). -/
noncomputable def quantizeInt8 (vec : List ℝ) : List ℝ :=
  vec.map (fun v => ((max (-128) (min 127 (round (v * 127))) : ℤ) : ℝ))

/-- `dequantizeInt8`: per component `v / 127`. -/
noncomputable def dequantizeInt8 (packed : List ℝ) : List ℝ :=
  packed.map (fun v => v / 127)

/-- `cosineSimilarity`: dimension mismatch is a hard error; a denominator that
is not above `1e-9` yields 0. -/
noncomputable def cosineSimilarity (a b : List ℝ) : Except String ℝ :=
  if a.length ≠ b.length then .error "Vector dimension mismatch" else
  let dot := ((a.zip b).map (fun p => p.1 * p.2)).sum
  let normA := (a.map (fun v => v * v)).sum
  let normB := (b.map (fun v => v * v)).sum
  let denom := Real.sqrt normA * Real.sqrt normB
  .ok (if (1e-9 : ℝ) < denom then dot / denom else 0)

/-- The projection produced by `MemoryRecord.toJSON()` — every scalar field of
a record except `embedding` and `embeddingHash`.  This is also the shape of
the metadata objects stored in the ANN indexes and (plus an embedding) of the
rows stored in the WARM/COLD stores.  `currentTier` is optional because
`_updateRecord` builds metadata objects that omit it. -/
structure RecordMeta where
  id : String
  text : String
  timestamp : ℤ
  lastAccessed : ℤ
  episodic : Bool
  importance : ℝ
  usage_count : ℕ
  semantic_cluster_id : Option String
  integrity_hash : String
  currentTier : Option Tier
  metadata : List (String × String)
  hnswHotId : Option ℕ
  hnswWarmId : Option ℕ

/-- The `MemoryRecord` class: `RecordMeta` fields plus the embedding and the
cached embedding hash.  The constructor clamp on `importance` is applied by
the smart constructors `MemoryRecord.create`/`MemoryRecord.ofMeta` below,
mirroring `new MemoryRecord({...})`. -/
structure MemoryRecord where
  id : String
  embedding : List ℝ
  text : String
  timestamp : ℤ
  lastAccessed : ℤ
  episodic : Bool
  importance : ℝ
  usage_count : ℕ
  semantic_cluster_id : Option String
  integrity_hash : String
  currentTier : Tier
  embeddingHash : Option String
  metadata : List (String × String)
  hnswHotId : Option ℕ
  hnswWarmId : Option ℕ

/-- `record.toJSON()`. -/
def MemoryRecord.toJSON (r : MemoryRecord) : RecordMeta :=
  { id := r.id, text := r.text, timestamp := r.timestamp, lastAccessed := r.lastAccessed,
    episodic := r.episodic, importance := r.importance, usage_count := r.usage_count,
    semantic_cluster_id := r.semantic_cluster_id, integrity_hash := r.integrity_hash,
    currentTier := some r.currentTier, metadata := r.metadata,
    hnswHotId := r.hnswHotId, hnswWarmId := r.hnswWarmId }

/-- The `MemoryRecord` constructor as invoked by `createMemoryRecord`: fresh
record with `currentTier = 'WARM'`, both timestamps taken from the clock,
`usage_count = 0`, no cluster id, no index handles, and the importance clamp
`Math.max(0, Math.min(1, importance))`. -/
noncomputable def MemoryRecord.create (id : String) (embedding : List ℝ) (text : String)
    (now : ℤ) (episodic : Bool) (importance : ℝ) (integrity_hash : String)
    (embeddingHash : Option String) (metadata : List (String × String)) : MemoryRecord :=
  { id := id, embedding := embedding, text := text, timestamp := now, lastAccessed := now,
    episodic := episodic, importance := max 0 (min 1 importance), usage_count := 0,
    semantic_cluster_id := none, integrity_hash := integrity_hash, currentTier := Tier.WARM,
    embeddingHash := embeddingHash, metadata := metadata, hnswHotId := none, hnswWarmId := none }

/-- The `MemoryRecord` constructor as invoked on a metadata object spread
(`new MemoryRecord({...meta, embedding, ...})`): all scalar fields come from
the metadata, the importance clamp is re-applied, `currentTier` defaults to
`'UNKNOWN'` when absent, and the embedding-hash cache starts empty. -/
noncomputable def MemoryRecord.ofMeta (m : RecordMeta) (embedding : List ℝ) : MemoryRecord :=
  { id := m.id, embedding := embedding, text := m.text, timestamp := m.timestamp,
    lastAccessed := m.lastAccessed, episodic := m.episodic,
    importance := max 0 (min 1 m.importance), usage_count := m.usage_count,
    semantic_cluster_id := m.semantic_cluster_id, integrity_hash := m.integrity_hash,
    currentTier := m.currentTier.getD Tier.UNKNOWN, embeddingHash := none,
    metadata := m.metadata, hnswHotId := m.hnswHotId, hnswWarmId := m.hnswWarmId }

/-- `decay_score` getter: `exp(-age / HALF_LIFE)` where `age = now - timestamp`. -/
noncomputable def MemoryRecord.decay_score (r : MemoryRecord) (now : ℤ) : ℝ :=
  Real.exp (-(((now - r.timestamp : ℤ) : ℝ)) / halfLifeMs)

/-- `temporal_weight` getter: `1 / (1 + age / SCALE)`. -/
noncomputable def MemoryRecord.temporal_weight (r : MemoryRecord) (now : ℤ) : ℝ :=
  1 / (1 + ((now - r.timestamp : ℤ) : ℝ) / scaleMs)

/-- `effective_weight` getter: `importance * decay_score * temporal_weight`. -/
noncomputable def MemoryRecord.effective_weight (r : MemoryRecord) (now : ℤ) : ℝ :=
  r.importance * r.decay_score now * r.temporal_weight now

/-- `record.access(simulate)`: bump `usage_count` and `lastAccessed` unless
simulating. -/
def MemoryRecord.access (r : MemoryRecord) (simulate : Bool) (now : ℤ) : MemoryRecord :=
  if simulate then r
  else { r with usage_count := r.usage_count + 1, lastAccessed := now }

/-- The importance attenuation applied to each cluster member during
consolidation (`r.importance *= 0.8` in `_processCluster`). -/
noncomputable def consolidateAttenuate (r : MemoryRecord) : MemoryRecord :=
  { r with importance := r.importance * (0.8 : ℝ) }

/-- A row of the WARM or COLD IndexedDB store: the record's `toJSON()` fields
plus the (quantized) embedding array. -/
structure Row where
  meta : RecordMeta
  embedding : List ℝ

/-- `IndexedDBStore.put` on a record-keyed store: upsert by `id` (`keyPath`). -/
def rowPut (st : List Row) (r : Row) : List Row :=
  if st.any (fun e => e.meta.id == r.meta.id) then
    st.map (fun e => if e.meta.id == r.meta.id then r else e)
  else st ++ [r]

/-- `IndexedDBStore.get` on a record-keyed store. -/
def rowGet (st : List Row) (id : String) : Option Row :=
  st.find? (fun e => e.meta.id == id)

/-- `IndexedDBStore.delete` on a record-keyed store. -/
def rowDelete (st : List Row) (id : String) : List Row :=
  st.filter (fun e => e.meta.id != id)

/-- A journal store entry: `{id: journalId, timestamp: Date.now(), record: record.toJSON()}`. -/
structure JournalEntry where
  id : ℕ
  timestamp : ℤ
  record : RecordMeta

/-- `journalStore.put` (keyed by the numeric journal id). -/
def jPut (st : List JournalEntry) (e : JournalEntry) : List JournalEntry :=
  if st.any (fun o => o.id == e.id) then
    st.map (fun o => if o.id == e.id then e else o)
  else st ++ [e]

/-- A node of an EdgeVec ANN index (HOT index, WARM index, or the temporary
clustering index), per the §4.3 capability contract: stable handle, vector,
metadata, and a soft-deletion mark. -/
structure HNode (μ : Type) where
  handle : ℕ
  vector : List ℝ
  meta : μ
  deleted : Bool

/-- An EdgeVec ANN index: nodes plus the next fresh handle. -/
structure HNSW (μ : Type) where
  nodes : List (HNode μ)
  nextHandle : ℕ

/-- An empty ANN index (`new EdgeVec({...})`). -/
def HNSW.empty {μ : Type} : HNSW μ := { nodes := [], nextHandle := 0 }

/-- `insertWithMetadata(vector, metadata) -> handle`: returns a stable fresh
handle for the inserted node. -/
def HNSW.insertWithMetadata {μ : Type} (t : HNSW μ) (v : List ℝ) (m : μ) : ℕ × HNSW μ :=
  (t.nextHandle,
   { nodes := t.nodes ++ [{ handle := t.nextHandle, vector := v, meta := m, deleted := false }],
     nextHandle := t.nextHandle + 1 })

/-- `softDelete(handle)`: logical removal; the node is retained until compaction. -/
def HNSW.softDelete {μ : Type} (t : HNSW μ) (h : ℕ) : HNSW μ :=
  { t with nodes := t.nodes.map (fun n => if n.handle == h then { n with deleted := true } else n) }

/-- `updateMetadata(handle, metadata)`. -/
def HNSW.updateMetadata {μ : Type} (t : HNSW μ) (h : ℕ) (m : μ) : HNSW μ :=
  { t with nodes := t.nodes.map (fun n => if n.handle == h then { n with meta := m } else n) }

/-- The live (not soft-deleted) nodes of an index. -/
def HNSW.liveNodes {μ : Type} (t : HNSW μ) : List (HNode μ) :=
  t.nodes.filter (fun n => !n.deleted)

/-- `getAllMetadata()`: the metadata of the live nodes (soft-deleted nodes are
unreachable per the §4.3 contract). -/
def HNSW.getAllMetadata {μ : Type} (t : HNSW μ) : List μ :=
  t.liveNodes.map (fun n => n.meta)

/-- `compact()`: physically remove soft-deleted nodes; handles remain stable. -/
def HNSW.compact {μ : Type} (t : HNSW μ) : HNSW μ :=
  { t with nodes := t.nodes.filter (fun n => !n.deleted) }

/-- A result produced by `searchBQ` (or by the cold fallback scan): metadata,
optionally a vector, and a score.  For ANN results the score is the cosine
similarity; for cold-scan results it is the composite score the scan computed. -/
structure SearchResult where
  metadata : RecordMeta
  embedding : Option (List ℝ)
  score : ℝ

/-- The external capabilities injected into the engine: the Ollama encoder and
generator, WebCrypto SHA-256, the embedding fingerprint, the EdgeVec `searchBQ`
procedures (one per metadata shape), the `clusterfck` hierarchical clusterer
(returning clusters as lists of leaf vectors), and the bit-level float16 codec
(whose IEEE-754 bit manipulation is outside the real-number model). -/
structure Env where
  embed : String → List ℝ
  generate : String → String
  sha : String → String
  hashEmbedding : List ℝ → String
  searchBQ : HNSW RecordMeta → List ℝ → ℕ → List SearchResult
  searchBQId : HNSW String → List ℝ → ℕ → List (String × ℝ)
  hcluster : List (List ℝ) → List (List (List ℝ))
  q16 : List ℝ → List ℝ
  dq16 : List ℝ → List ℝ

/-- Fault-injection flags for the fallible external calls on the write path:
`true` means the corresponding call throws (StoreIO / EncoderFailure). -/
structure Faults where
  embed : Bool
  metaPut : Bool
  journalPut : Bool
  warmPut : Bool

/-- The no-fault environment. -/
def noFaults : Faults :=
  { embed := false, metaPut := false, journalPut := false, warmPut := false }

/-- The engine configuration (the fields consumed by the modelled operations;
timer/memory-monitor settings drive only scheduled background work). -/
structure Config where
  U_hot : ℕ
  I_hot : ℝ
  D_warm : ℝ
  epsilon : ℝ
  consolidationInterval : ℕ
  consolidationChunkSize : ℕ
  journalRotationSize : ℕ
  coldSearchChunkSize : ℕ
  demotionUsageThreshold : ℕ
  compactionThreshold : ℕ
  useAdvancedClustering : Bool
  advancedClusteringThreshold : ℕ
  clusterDiameter : ℝ
  maxClustersPerPass : ℕ

/-- The default configuration values of the `SCMP` constructor. -/
noncomputable def defaultConfig : Config :=
  { U_hot := 10, I_hot := 0.8, D_warm := 0.1, epsilon := 0.01,
    consolidationInterval := 100, consolidationChunkSize := 500,
    journalRotationSize := 10000, coldSearchChunkSize := 1000,
    demotionUsageThreshold := 2, compactionThreshold := 100,
    useAdvancedClustering := true, advancedClusteringThreshold := 5000,
    clusterDiameter := 0.3, maxClustersPerPass := 100 }

/-- The static context of every operation: capabilities, configuration and
fault injection. -/
structure Ctx where
  env : Env
  cfg : Config
  faults : Faults

/-- The mutable state of an `SCMP` instance: the five stores (of the meta
store, the `journal_counter` row), the two ANN indexes, the in-memory counters
and the lock flags. -/
@[ext]
structure SCMPState where
  inited : Bool
  salt : String
  warmStore : List Row
  coldStore : List Row
  journalStore : List JournalEntry
  metaJournalCounter : Option ℕ
  journalCounter : ℕ
  hnswHot : HNSW RecordMeta
  hnswWarm : HNSW RecordMeta
  recordsSinceConsolidation : ℕ
  deletionsSinceCompaction : ℕ
  mutationsSinceLastSave : ℕ
  searchLock : Bool
  consolidateLock : Bool
  pruneLock : Bool
  compactLock : Bool

/-- `this._hash(text)`: SHA-256 of `text + salt`. -/
def scmpHash (env : Env) (salt : String) (text : String) : String :=
  env.sha (text ++ salt)

/-- `_incrementJournalCounter`: bump the in-memory counter, then persist it to
the meta store.  The in-memory bump happens before the `put`, so a failing
`put` leaves the bumped counter behind (the error is reported together with
the state it left). -/
def incrementJournalCounter (c : Ctx) (s : SCMPState) : Except String ℕ × SCMPState :=
  let s1 := { s with journalCounter := s.journalCounter + 1 }
  if c.faults.metaPut then (.error "Put failed", s1)
  else (.ok s1.journalCounter, { s1 with metaJournalCounter := some s1.journalCounter })

/-- `appendJournal(record)`: allocate a monotonic id (persisting the counter),
store the entry, and check the rotation threshold (rotation itself runs via
`setImmediate`).  Every error inside the body is caught and logged, so the
call only throws when the instance is not initialized. -/
def appendJournal (c : Ctx) (now : ℤ) (record : MemoryRecord) (s : SCMPState) :
    Except String SCMPState :=
  if s.inited = false then .error "SCMP not initialized" else
  .ok <|
    match incrementJournalCounter c s with
    | (.error _, s1) => s1
    | (.ok journalId, s1) =>
      if c.faults.journalPut then s1
      else
        let entry : JournalEntry := { id := journalId, timestamp := now, record := record.toJSON }
        { s1 with journalStore := jPut s1.journalStore entry }

/-- `rotateJournal()`: if the journal holds at least `journalRotationSize`
entries, clear it entirely; otherwise do nothing.  The persisted journal
counter is not touched. -/
def rotateJournal (cfg : Config) (s : SCMPState) : Except String SCMPState :=
  if s.inited = false then .error "SCMP not initialized" else
  .ok <|
    if s.journalStore.length < cfg.journalRotationSize then s
    else { s with journalStore := [] }

/-- A fresh post-`initialize` state over empty persistent stores. -/
def freshState (salt : String) : SCMPState :=
  { inited := true, salt := salt, warmStore := [], coldStore := [], journalStore := [],
    metaJournalCounter := none, journalCounter := 0, hnswHot := HNSW.empty,
    hnswWarm := HNSW.empty, recordsSinceConsolidation := 0, deletionsSinceCompaction := 0,
    mutationsSinceLastSave := 0, searchLock := false, consolidateLock := false,
    pruneLock := false, compactLock := false }

/-- A restart: a new instance opened over the same persistent stores.
`initialize` reloads the journal counter from the meta store
(`_loadJournalCounter`: the persisted value, or 0 when absent) and resets the
in-memory counters and locks; the ANN indexes are reloaded from their own
persistence, which is outside the store model. -/
def restartState (s : SCMPState) : SCMPState :=
  { s with inited := true, journalCounter := s.metaJournalCounter.getD 0,
           recordsSinceConsolidation := 0, deletionsSinceCompaction := 0,
           mutationsSinceLastSave := 0, searchLock := false, consolidateLock := false,
           pruneLock := false, compactLock := false }

/-- The operations relevant to the journal-id discipline: an `appendJournal`
call (with the clock value and record it was given) or a restart of the
instance. -/
inductive JournalOp where
  | append (now : ℤ) (record : MemoryRecord)
  | restart

/-- One step of the journal-id discipline.  `appendJournal` never throws on an
initialized instance; the error branch is unreachable and keeps the state. -/
def journalStep (c : Ctx) (s : SCMPState) : JournalOp → SCMPState
  | .append now record =>
    match appendJournal c now record s with
    | .ok s' => s'
    | .error _ => s
  | .restart => restartState s

/-- A sequence of journal operations run from a state. -/
def journalRun (c : Ctx) (s : SCMPState) (ops : List JournalOp) : SCMPState :=
  ops.foldl (journalStep c) s

/-- The ids of the stored journal entries, in store order. -/
def journalIds (s : SCMPState) : List ℕ :=
  s.journalStore.map (fun e => e.id)

/-- `storeWarm(record)`: insert the full-precision vector into the WARM ANN
index with the record's `toJSON()` metadata (a snapshot taken before the
returned handle is assigned to the record), record the handle on the record,
and put the float16-quantized row into the WARM store.  Store errors are
rethrown. -/
noncomputable def storeWarm (c : Ctx) (record : MemoryRecord) (s : SCMPState) :
    Except String (MemoryRecord × SCMPState) :=
  if s.inited = false then .error "SCMP not initialized" else
  let float16 := c.env.q16 record.embedding
  let ins := s.hnswWarm.insertWithMetadata record.embedding record.toJSON
  let record1 := { record with hnswWarmId := some ins.1 }
  let warmRow : Row := { meta := record1.toJSON, embedding := float16 }
  if c.faults.warmPut then .error "Put failed"
  else .ok (record1, { s with hnswWarm := ins.2, warmStore := rowPut s.warmStore warmRow })

/-- `storeCold(record)`: put the int8-quantized row into the COLD store. -/
noncomputable def storeCold (record : MemoryRecord) (s : SCMPState) :
    Except String SCMPState :=
  if s.inited = false then .error "SCMP not initialized" else
  .ok { s with coldStore := rowPut s.coldStore
                 { meta := record.toJSON, embedding := quantizeInt8 record.embedding } }

/-- Options of `createMemoryRecord` with their defaults. -/
structure CreateOptions where
  episodic : Bool := true
  importance : ℝ := 0.5
  metadata : List (String × String) := []

/-- `createMemoryRecord(text, options)`: compute the id (from text, clock and
a random nonce), embed the text, build the record (tier WARM), append it to
the journal, store it WARM, and bump the consolidation and mutation counters
(the threshold-triggered consolidation and batch save run via
`setImmediate`).  Any error thrown by a step is rethrown to the caller as
`Memory creation failed`. -/
noncomputable def createMemoryRecord (c : Ctx) (now : ℤ) (nonce : String) (text : String)
    (options : CreateOptions) (s : SCMPState) : Except String (MemoryRecord × SCMPState) :=
  if s.inited = false then .error "SCMP not initialized" else
  if text = "" then .error "Invalid text for memory record" else
  let id := scmpHash c.env s.salt (text ++ toString now ++ nonce)
  match (if c.faults.embed then Except.error "embed failed"
         else Except.ok (c.env.embed text) : Except String (List ℝ)) with
  | .error e => .error ("Memory creation failed: " ++ e)
  | .ok embedding =>
    let integrity_hash := scmpHash c.env s.salt text
    let embHash := c.env.hashEmbedding embedding
    let record := MemoryRecord.create id embedding text now options.episodic
      options.importance integrity_hash (some embHash) options.metadata
    match appendJournal c now record s with
    | .error e => .error ("Memory creation failed: " ++ e)
    | .ok s1 =>
      match storeWarm c record s1 with
      | .error e => .error ("Memory creation failed: " ++ e)
      | .ok (record1, s2) =>
        .ok (record1,
          { s2 with recordsSinceConsolidation := s2.recordsSinceConsolidation + 1,
                    mutationsSinceLastSave := s2.mutationsSinceLastSave + 1 })

/-- `shouldPromote(record)`: `effective_weight >= I_hot || usage_count >= U_hot`. -/
noncomputable def shouldPromote (cfg : Config) (now : ℤ) (r : MemoryRecord) : Prop :=
  cfg.I_hot ≤ r.effective_weight now ∨ cfg.U_hot ≤ r.usage_count

/-- `shouldDemote(record)`: `decay_score < D_warm && usage_count < demotionUsageThreshold`. -/
noncomputable def shouldDemote (cfg : Config) (now : ℤ) (r : MemoryRecord) : Prop :=
  r.decay_score now < cfg.D_warm ∧ r.usage_count < cfg.demotionUsageThreshold

open Classical in
/-- `applyPromotion(record, simulate)`: `null` when `shouldPromote` fails;
otherwise (when not simulating) delete the record's rows from the WARM and
COLD stores if present, insert the vector into the HOT index with a
`toJSON()` metadata snapshot taken before the returned handle is assigned,
record the handle on the record, soft-delete the tracked WARM handle if
present, and set `currentTier = 'HOT'`. -/
noncomputable def applyPromotion (c : Ctx) (now : ℤ) (record : MemoryRecord)
    (simulate : Bool) (s : SCMPState) :
    Except String (Option Tier × MemoryRecord × SCMPState) :=
  if s.inited = false then .error "SCMP not initialized" else
  if ¬ shouldPromote c.cfg now record then .ok (none, record, s) else
  if simulate then .ok (some Tier.HOT, record, s) else
  let s1 := { s with warmStore := rowDelete s.warmStore record.id,
                     coldStore := rowDelete s.coldStore record.id }
  let ins := s1.hnswHot.insertWithMetadata record.embedding record.toJSON
  let record1 := { record with hnswHotId := some ins.1 }
  let warm1 := match record1.hnswWarmId with
               | some h => s1.hnswWarm.softDelete h
               | none => s1.hnswWarm
  let record2 := { record1 with currentTier := Tier.HOT }
  .ok (some Tier.HOT, record2, { s1 with hnswHot := ins.2, hnswWarm := warm1 })

open Classical in
/-- `applyDemotion(record, simulate)`: `null` when `shouldDemote` fails;
otherwise (when not simulating) soft-delete the tracked HOT handle if present,
store the record WARM, and set `currentTier = 'WARM'`. -/
noncomputable def applyDemotion (c : Ctx) (now : ℤ) (record : MemoryRecord)
    (simulate : Bool) (s : SCMPState) :
    Except String (Option Tier × MemoryRecord × SCMPState) :=
  if s.inited = false then .error "SCMP not initialized" else
  if ¬ shouldDemote c.cfg now record then .ok (none, record, s) else
  if simulate then .ok (some Tier.WARM, record, s) else
  let hot1 := match record.hnswHotId with
              | some h => s.hnswHot.softDelete h
              | none => s.hnswHot
  match storeWarm c record { s with hnswHot := hot1 } with
  | .error e => .error e
  | .ok (record1, s1) => .ok (some Tier.WARM, { record1 with currentTier := Tier.WARM }, s1)

/-- `determineSimulatedTier(record, simulate)`: promotion, then demotion, then
(when simulating) the current tier, else whichever store still holds the
record. -/
noncomputable def determineSimulatedTier (c : Ctx) (now : ℤ) (record : MemoryRecord)
    (simulate : Bool) (s : SCMPState) :
    Except String (Tier × MemoryRecord × SCMPState) :=
  match applyPromotion c now record simulate s with
  | .error e => .error e
  | .ok (some t, r1, s1) => .ok (t, r1, s1)
  | .ok (none, r1, s1) =>
    match applyDemotion c now r1 simulate s1 with
    | .error e => .error e
    | .ok (some t, r2, s2) => .ok (t, r2, s2)
    | .ok (none, r2, s2) =>
      if simulate then .ok (r2.currentTier, r2, s2)
      else if (rowGet s2.warmStore r2.id).isSome then .ok (Tier.WARM, r2, s2)
      else if (rowGet s2.coldStore r2.id).isSome then .ok (Tier.COLD, r2, s2)
      else .ok (Tier.UNKNOWN, r2, s2)

/-- The record a COLD store row is wrapped into before scoring, pruning or
enumeration: `new MemoryRecord({...r, embedding: dequantizeInt8(r.embedding),
currentTier: 'COLD'})`. -/
noncomputable def coldRecord (row : Row) : MemoryRecord :=
  MemoryRecord.ofMeta { row.meta with currentTier := some Tier.COLD }
    (dequantizeInt8 row.embedding)

/-- `_compactHNSW()`: skipped when the compact lock is held; otherwise compact
both indexes, reset the deletion counter, and save the indexes (ANN
persistence is outside the store model).  Errors are caught and logged. -/
def compactHNSW (s : SCMPState) : SCMPState :=
  if s.compactLock then s
  else { s with hnswHot := s.hnswHot.compact, hnswWarm := s.hnswWarm.compact,
                deletionsSinceCompaction := 0 }

open Classical in
/-- The scan loop of `prune`: for each COLD record with
`effective_weight < epsilon && usage_count === 0`, record its id and (unless
simulating) delete its row and bump the deletion counter. -/
noncomputable def pruneLoop (cfg : Config) (now : ℤ) (simulate : Bool) :
    List MemoryRecord → SCMPState → List String → List String × SCMPState
  | [], s, acc => (acc, s)
  | record :: rest, s, acc =>
    if record.effective_weight now < cfg.epsilon ∧ record.usage_count = 0 then
      let s1 := if simulate then s
                else { s with coldStore := rowDelete s.coldStore record.id,
                              deletionsSinceCompaction := s.deletionsSinceCompaction + 1 }
      pruneLoop cfg now simulate rest s1 (acc ++ [record.id])
    else pruneLoop cfg now simulate rest s acc

open Classical in
/-- `prune(simulate)`: skipped (empty result) when the prune lock is held;
otherwise scan the COLD store, delete the weight-expired unused records, then
(when any were pruned and not simulating) compact if the deletion counter
reached the threshold and track the mutation. -/
noncomputable def prune (c : Ctx) (now : ℤ) (simulate : Bool) (s : SCMPState) :
    Except String (List String × SCMPState) :=
  if s.inited = false then .error "SCMP not initialized" else
  if s.pruneLock then .ok ([], s) else
  let coldRecords := s.coldStore.map coldRecord
  match pruneLoop c.cfg now simulate coldRecords s [] with
  | (prunedIds, s1) =>
    if simulate = false ∧ prunedIds ≠ [] then
      let s2 := if c.cfg.compactionThreshold ≤ s1.deletionsSinceCompaction
                then compactHNSW s1 else s1
      .ok (prunedIds, { s2 with mutationsSinceLastSave := s2.mutationsSinceLastSave + 1 })
    else .ok (prunedIds, s1)

/-- The deletion condition of the prune scan, read off a COLD store row the
way `prune` reads it: the wrapped record satisfies
`effective_weight < epsilon && usage_count === 0`. -/
noncomputable def pruneCandidate (cfg : Config) (now : ℤ) (row : Row) : Prop :=
  (coldRecord row).effective_weight now < cfg.epsilon ∧ (coldRecord row).usage_count = 0

/-- A stable insertion into a list sorted by the strict precedence `lt`. -/
def insertBy {α : Type} (lt : α → α → Prop) [DecidableRel lt] (a : α) : List α → List α
  | [] => [a]
  | b :: t => if lt a b then a :: b :: t else b :: insertBy lt a t

/-- A stable comparator sort, modelling JavaScript `Array.prototype.sort`
(which is stable): `lt a b` means the comparator orders `a` strictly before
`b`. -/
def sortByRel {α : Type} (lt : α → α → Prop) [DecidableRel lt] : List α → List α
  | [] => []
  | a :: t => insertBy lt a (sortByRel lt t)

/-- The chunk slicing `for (let i = 0; i < arr.length; i += chunkSize)`
performs (the source only runs it with positive chunk sizes).  The fuel is
the list length, which bounds the number of slices. -/
def chunksOf {α : Type} (n : ℕ) (l : List α) : List (List α) :=
  go l.length l
where
  go : ℕ → List α → List (List α)
  | _, [] => []
  | 0, l => [l]
  | fuel + 1, l => l.take n :: go fuel (l.drop n)

/-- The COLD-store operations `_chunkedColdSearch` can issue, recorded with
the number of rows each one returned: `count()`, `getAll()` (the whole store
at once), and a chunked cursor read via `iterateChunks`. -/
inductive ColdOp where
  | count (n : ℕ)
  | getAll (n : ℕ)
  | scanChunks (chunkSize : ℕ)
deriving DecidableEq

open Classical in
/-- The record-scoring inner loop of `_chunkedColdSearch` over one chunk:
wrap the row, `access(simulate)`, cosine-score against the query, and push
the composite-scored entry. -/
noncomputable def scoreChunk (now : ℤ) (queryVec : List ℝ) (simulate : Bool) :
    List Row → List SearchResult → Except String (List SearchResult)
  | [], acc => .ok acc
  | r :: rest, acc =>
    let record := (coldRecord r).access simulate now
    match cosineSimilarity queryVec record.embedding with
    | .error e => .error e
    | .ok similarity =>
      let score := similarity * record.effective_weight now
      scoreChunk now queryVec simulate rest
        (acc ++ [{ metadata := record.toJSON, embedding := some record.embedding,
                   score := score }])

open Classical in
/-- The chunk loop of `_chunkedColdSearch`: after each chunk, exit early once
the scored pool has at least `limit * 5` entries; in both exits sort by
descending composite score and truncate to `limit`. -/
noncomputable def coldChunkLoop (now : ℤ) (queryVec : List ℝ) (limit : ℕ) (simulate : Bool) :
    List (List Row) → List SearchResult → Except String (List SearchResult)
  | [], scored =>
    .ok ((sortByRel (fun a b : SearchResult => b.score < a.score) scored).take limit)
  | chunk :: rest, scored =>
    match scoreChunk now queryVec simulate chunk scored with
    | .error e => .error e
    | .ok scored1 =>
      if limit * 5 ≤ scored1.length then
        .ok ((sortByRel (fun a b : SearchResult => b.score < a.score) scored1).take limit)
      else coldChunkLoop now queryVec limit simulate rest scored1

/-- `_chunkedColdSearch(queryVec, limit, simulate)`: the store operations it
performs are `count()` (whose result is unused) followed by `getAll()`, which
materializes the entire COLD store; the materialized array is then sliced
into chunks of `coldSearchChunkSize` and scored by `coldChunkLoop`.  The
cursor-based `iterateChunks` is never invoked.  The second component records
the store-operation trace. -/
noncomputable def chunkedColdSearch (c : Ctx) (now : ℤ) (queryVec : List ℝ) (limit : ℕ)
    (simulate : Bool) (s : SCMPState) : Except String (List SearchResult) × List ColdOp :=
  (coldChunkLoop now queryVec limit simulate
     (chunksOf c.cfg.coldSearchChunkSize s.coldStore) [],
   [ColdOp.count s.coldStore.length, ColdOp.getAll s.coldStore.length])

/-- `_reconstructEmbedding(recordId, tier)`: reload the quantized embedding
from the WARM or COLD store; anything else is an error. -/
noncomputable def reconstructEmbedding (c : Ctx) (recordId : String) (tier : Option Tier)
    (s : SCMPState) : Except String (List ℝ) :=
  match tier with
  | some Tier.WARM =>
    match rowGet s.warmStore recordId with
    | some row => .ok (c.env.dq16 row.embedding)
    | none => .error "Could not reconstruct embedding"
  | some Tier.COLD =>
    match rowGet s.coldStore recordId with
    | some row => .ok (dequantizeInt8 row.embedding)
    | none => .error "Could not reconstruct embedding"
  | _ => .error "Could not reconstruct embedding"

/-- The filters object of a search: the two keys the source reads
(`episodic`, `minImportance`) plus arbitrary further metadata keys a caller
may pass (`none`/`[]` model absent keys). -/
structure Filters where
  episodic : Option Bool := none
  minImportance : Option ℝ := none
  metadata : List (String × String) := []

/-- Search options: `{ simulate = false, filters = {} }` defaults. -/
structure SearchOptions where
  simulate : Bool := false
  filters : Filters := {}

/-- An entry of the rescored result list:
`{...record.toJSON(), score, simulatedTier, similarity}`. -/
structure ResultEntry where
  meta : RecordMeta
  score : ℝ
  simulatedTier : Tier
  similarity : ℝ

/-- The metadata object `_updateRecord` builds: every `toJSON()` field except
`currentTier` (omission is modelled by `none`). -/
def updateMetaOf (m : RecordMeta) : RecordMeta :=
  { m with currentTier := none }

/-- `{...storedRow, ...updateMeta}`: the update's fields override the row's,
except `currentTier` and `embedding`, which the update object omits. -/
def mergeRow (old : Row) (u : RecordMeta) : Row :=
  { meta := { u with currentTier := old.meta.currentTier }, embedding := old.embedding }

/-- `_updateRecord(recordData)`: update via the tracked HOT handle, else the
tracked WARM handle, else merge into the WARM store row, else into the COLD
store row; errors are caught and logged. -/
def updateRecord (m : RecordMeta) (s : SCMPState) : SCMPState :=
  match m.hnswHotId with
  | some h => { s with hnswHot := s.hnswHot.updateMetadata h (updateMetaOf m) }
  | none =>
    match m.hnswWarmId with
    | some h => { s with hnswWarm := s.hnswWarm.updateMetadata h (updateMetaOf m) }
    | none =>
      match rowGet s.warmStore m.id with
      | some row => { s with warmStore := rowPut s.warmStore (mergeRow row (updateMetaOf m)) }
      | none =>
        match rowGet s.coldStore m.id with
        | some row => { s with coldStore := rowPut s.coldStore (mergeRow row (updateMetaOf m)) }
        | none => s

/-- The `filters.episodic` rejection test of the rescore loop:
`filters.episodic !== undefined && record.episodic !== filters.episodic`. -/
def episodicRejects (epFilter : Option Bool) (record : MemoryRecord) : Prop :=
  match epFilter with
  | some b => record.episodic ≠ b
  | none => False

/-- The `filters.minImportance` rejection test of the rescore loop:
`filters.minImportance && record.importance < filters.minImportance` (a zero
bound is falsy and disables the filter). -/
def minImportanceRejects (miFilter : Option ℝ) (record : MemoryRecord) : Prop :=
  match miFilter with
  | some m => ¬ m = 0 ∧ record.importance < m
  | none => False

open Classical in
/-- The per-candidate rescoring loop of `search`: reconstruct the embedding
when absent, wrap as a record (tier defaulting to HOT), `access(simulate)`,
evaluate promotion/demotion via `determineSimulatedTier`, compute the
composite score, and keep the entry unless the `episodic` or `minImportance`
filter rejects it.  `epFilter` and `miFilter` are the only two keys of the
filters object the loop reads. -/
noncomputable def rescoreLoop (c : Ctx) (now : ℤ) (epFilter : Option Bool)
    (miFilter : Option ℝ) (simulate : Bool) :
    List SearchResult → SCMPState → List ResultEntry →
    Except String (List ResultEntry × SCMPState)
  | [], s, acc => .ok (acc, s)
  | res :: rest, s, acc =>
    let meta := res.metadata
    match (match res.embedding with
           | some e => if e.length = 0 then reconstructEmbedding c meta.id meta.currentTier s
                       else .ok e
           | none => reconstructEmbedding c meta.id meta.currentTier s) with
    | .error e => .error e
    | .ok embedding =>
      let record := MemoryRecord.ofMeta
        { meta with currentTier := some (meta.currentTier.getD Tier.HOT) } embedding
      let record := record.access simulate now
      match determineSimulatedTier c now record simulate s with
      | .error e => .error e
      | .ok (simulatedTier, record, s1) =>
        let score := res.score * record.effective_weight now
        if episodicRejects epFilter record then
          rescoreLoop c now epFilter miFilter simulate rest s1 acc
        else if minImportanceRejects miFilter record then
          rescoreLoop c now epFilter miFilter simulate rest s1 acc
        else
          rescoreLoop c now epFilter miFilter simulate rest s1
            (acc ++ [{ meta := record.toJSON, score := score,
                       simulatedTier := simulatedTier, similarity := res.score }])

open Classical in
/-- `search(queryText, k, options)`: lock check (skipped when simulating;
with the lock held a non-simulating call times out in the sequential model),
embed the query, cascade HOT → WARM → chunked COLD until `2k` candidates,
rescore and filter, sort by descending composite score, persist the top-`k`
metadata updates unless simulating, and return the top `k`. -/
noncomputable def search (c : Ctx) (now : ℤ) (queryText : String) (k : ℕ)
    (options : SearchOptions) (s : SCMPState) :
    Except String (List ResultEntry × SCMPState) :=
  if s.inited = false then .error "SCMP not initialized" else
  if s.searchLock = true ∧ options.simulate = false then .error "Lock timeout for search" else
  match (if c.faults.embed then Except.error "embed failed"
         else Except.ok (c.env.embed queryText) : Except String (List ℝ)) with
  | .error e => .error ("Search failed: " ++ e)
  | .ok queryVec =>
    let hotResults := c.env.searchBQ s.hnswHot queryVec (k * 2)
    let results := if hotResults.length < k * 2 then
        hotResults ++ c.env.searchBQ s.hnswWarm queryVec (k * 2 - hotResults.length)
      else hotResults
    match (if results.length < k * 2 then
             (chunkedColdSearch c now queryVec (k * 2 - results.length)
                options.simulate s).1.map (fun cold => results ++ cold)
           else .ok results : Except String (List SearchResult)) with
    | .error e => .error ("Search failed: " ++ e)
    | .ok results =>
      match rescoreLoop c now options.filters.episodic options.filters.minImportance
          options.simulate results s [] with
      | .error e => .error ("Search failed: " ++ e)
      | .ok (rescored, s1) =>
        let sorted := sortByRel (fun a b : ResultEntry => b.score < a.score) rescored
        if options.simulate then .ok (sorted.take k, s1)
        else .ok (sorted.take k,
          (sorted.take k).foldl (fun st e => updateRecord e.meta st) s1)

/-- `record.getEmbeddingHash()`: the cached hash, else the fingerprint of the
embedding. -/
def getEmbeddingHash (env : Env) (r : MemoryRecord) : String :=
  match r.embeddingHash with
  | some h => h
  | none => env.hashEmbedding r.embedding

/-- `Map.set` over string keys (last set wins). -/
def mapPut {α : Type} (t : List (String × α)) (k : String) (v : α) : List (String × α) :=
  if t.any (fun e => e.1 == k) then t.map (fun e => if e.1 == k then (k, v) else e)
  else t ++ [(k, v)]

/-- `Map.get` over string keys. -/
def mapGet {α : Type} (t : List (String × α)) (k : String) : Option α :=
  (t.find? (fun e => e.1 == k)).map (fun e => e.2)

open Classical in
/-- The member loop of `_processCluster`: `access(simulate)`, assign the
cluster id, attenuate importance by 0.8, snapshot `toJSON()` into the
updated-records list, then evaluate promotion and demotion. -/
noncomputable def memberLoop (c : Ctx) (now : ℤ) (clusterId : String) (simulate : Bool) :
    List MemoryRecord → SCMPState → List RecordMeta →
    Except String (List RecordMeta × SCMPState)
  | [], s, acc => .ok (acc, s)
  | r :: rest, s, acc =>
    let r1 := r.access simulate now
    let r2 := { r1 with semantic_cluster_id := some clusterId }
    let r3 := consolidateAttenuate r2
    match applyPromotion c now r3 simulate s with
    | .error e => .error e
    | .ok (_, r4, s1) =>
      match applyDemotion c now r4 simulate s1 with
      | .error e => .error e
      | .ok (_, _, s2) => memberLoop c now clusterId simulate rest s2 (acc ++ [r3.toJSON])

open Classical in
/-- `_processCluster(clusterRecords, simulate)`: summarize via the external
generator, derive the cluster id, synthesize the centroid semantic record
(episodic = false, importance 0.7, tier WARM), append it to the journal
(unconditionally), store it WARM only when not simulating, then run the
member loop. -/
noncomputable def processCluster (c : Ctx) (now : ℤ) (simulate : Bool)
    (clusterRecords : List MemoryRecord) (s : SCMPState) :
    Except String (List RecordMeta × SCMPState) :=
  if clusterRecords.length < 2 then .ok ([], s) else
  let texts := clusterRecords.map (fun r => r.text)
  let summary := c.env.generate
    ("Briefly summarize these related memories in one sentence:\n" ++
      String.intercalate "\n" texts)
  let sortedIds := String.join
    (sortByRel (fun a b : String => a < b) (clusterRecords.map (fun r => r.id)))
  let clusterId := scmpHash c.env s.salt (summary ++ sortedIds)
  let dim := (clusterRecords.head?.elim 0 (fun r => r.embedding.length))
  let centroid := (List.range dim).map (fun i =>
    (clusterRecords.map (fun r => r.embedding.getD i 0)).sum / (clusterRecords.length : ℝ))
  let semanticRecord := MemoryRecord.create (scmpHash c.env s.salt (summary ++ toString now))
    centroid summary now false 0.7 (scmpHash c.env s.salt summary) none
    [("cluster_id", clusterId), ("member_count", toString clusterRecords.length)]
  let semanticRecord := { semanticRecord with semantic_cluster_id := some clusterId }
  match appendJournal c now semanticRecord s with
  | .error e => .error e
  | .ok s1 =>
    match (if simulate then Except.ok (semanticRecord, s1)
           else storeWarm c semanticRecord s1 :
           Except String (MemoryRecord × SCMPState)) with
    | .error e => .error e
    | .ok (semanticRecord1, s2) =>
      memberLoop c now clusterId simulate clusterRecords s2 [semanticRecord1.toJSON]

open Classical in
/-- The cluster loop of `_consolidateChunk`: skip clusters of fewer than two
leaves, map leaf vectors back to records via the embedding-hash table, skip
when fewer than two records match, and process the rest. -/
noncomputable def clusterLoop (c : Ctx) (now : ℤ) (simulate : Bool)
    (table : List (String × MemoryRecord)) :
    List (List (List ℝ)) → SCMPState → List RecordMeta →
    Except String (List RecordMeta × SCMPState)
  | [], s, acc => .ok (acc, s)
  | cluster :: rest, s, acc =>
    if cluster.length < 2 then clusterLoop c now simulate table rest s acc
    else
      let leafHashes := cluster.map c.env.hashEmbedding
      let clusterRecords := leafHashes.filterMap (fun h => mapGet table h)
      if clusterRecords.length < 2 then clusterLoop c now simulate table rest s acc
      else
        match processCluster c now simulate clusterRecords s with
        | .error e => .error e
        | .ok (updated, s1) => clusterLoop c now simulate table rest s1 (acc ++ updated)

/-- `_consolidateChunk(records, simulate)`: hierarchical agglomerative
clustering (the external `clusterfck` `hcluster`, cosine, average linkage)
over the chunk's vectors, with records recovered from leaf vectors through
their embedding hashes. -/
noncomputable def consolidateChunk (c : Ctx) (now : ℤ) (simulate : Bool)
    (records : List MemoryRecord) (s : SCMPState) :
    Except String (List RecordMeta × SCMPState) :=
  if records.length < 2 then .ok ([], s) else
  let table := records.foldl (fun t r => mapPut t (getEmbeddingHash c.env r) r) []
  let vectors := records.map (fun r => r.embedding)
  clusterLoop c now simulate table (c.env.hcluster vectors) s []

/-- The temporary ANN index `_hnswBasedClustering` builds (metadata
`{id: record.id}` modelled by the id). -/
def tempIndexOf (records : List MemoryRecord) : HNSW String :=
  records.foldl (fun t r => (t.insertWithMetadata r.embedding r.id).2) HNSW.empty

open Classical in
/-- The record loop of `_hnswBasedClustering`: for each unprocessed record,
query its 50 nearest neighbors, absorb the unprocessed ones whose similarity
is at least `1 - clusterDiameter`, keep clusters of size at least 2, and stop
after `maxClustersPerPass`. -/
noncomputable def hnswClusterLoop (c : Ctx) (tempIndex : HNSW String)
    (idToRecord : List (String × MemoryRecord)) :
    List MemoryRecord → List String → List (List MemoryRecord) → List (List MemoryRecord)
  | [], _, clusters => clusters
  | record :: rest, processed, clusters =>
    if record.id ∈ processed then hnswClusterLoop c tempIndex idToRecord rest processed clusters
    else
      let neighbors := c.env.searchBQId tempIndex record.embedding 50
      let step := neighbors.foldl (fun (acc : List MemoryRecord × List String) nb =>
        if nb.1 ∈ acc.2 then acc
        else if 1 - c.cfg.clusterDiameter ≤ nb.2 then
          match mapGet idToRecord nb.1 with
          | some rr => (acc.1 ++ [rr], acc.2 ++ [nb.1])
          | none => acc
        else acc) ([record], processed ++ [record.id])
      let clusters1 := if 2 ≤ step.1.length then clusters ++ [step.1] else clusters
      if c.cfg.maxClustersPerPass ≤ clusters1.length then clusters1
      else hnswClusterLoop c tempIndex idToRecord rest step.2 clusters1

/-- `_hnswBasedClustering(records)`: graph-based pre-clustering over a
temporary ANN index. -/
noncomputable def hnswBasedClustering (c : Ctx) (records : List MemoryRecord) :
    List (List MemoryRecord) :=
  hnswClusterLoop c (tempIndexOf records)
    (records.foldl (fun t r => mapPut t r.id r) []) records [] []

open Classical in
/-- The chunk loop of `consolidate`'s hierarchical path. -/
noncomputable def chunkLoop (c : Ctx) (now : ℤ) (simulate : Bool) :
    List (List Row) → SCMPState → List RecordMeta →
    Except String (List RecordMeta × SCMPState)
  | [], s, acc => .ok (acc, s)
  | chunk :: rest, s, acc =>
    let chunkRecords := chunk.map (fun r =>
      MemoryRecord.ofMeta { r.meta with currentTier := some Tier.WARM } (c.env.dq16 r.embedding))
    match consolidateChunk c now simulate chunkRecords s with
    | .error e => .error e
    | .ok (updated, s1) => chunkLoop c now simulate rest s1 (acc ++ updated)

open Classical in
/-- The cluster loop of `consolidate`'s advanced path. -/
noncomputable def clustersLoop (c : Ctx) (now : ℤ) (simulate : Bool) :
    List (List MemoryRecord) → SCMPState → List RecordMeta →
    Except String (List RecordMeta × SCMPState)
  | [], s, acc => .ok (acc, s)
  | cl :: rest, s, acc =>
    match processCluster c now simulate cl s with
    | .error e => .error e
    | .ok (updated, s1) => clustersLoop c now simulate rest s1 (acc ++ updated)

open Classical in
/-- `consolidate(simulate)`: skipped (empty result) when the consolidate lock
is held; with fewer than two WARM records nothing happens; otherwise cluster
the WARM rows (advanced graph clustering above the threshold, chunked
hierarchical clustering below it), process each cluster, persist the updated
metadata unless simulating, and reset `recordsSinceConsolidation`. -/
noncomputable def consolidate (c : Ctx) (now : ℤ) (simulate : Bool) (s : SCMPState) :
    Except String (List RecordMeta × SCMPState) :=
  if s.inited = false then .error "SCMP not initialized" else
  if s.consolidateLock = true then .ok ([], s) else
  if s.warmStore.length < 2 then .ok ([], s) else
  match (if c.cfg.useAdvancedClustering = true ∧
           c.cfg.advancedClusteringThreshold ≤ s.warmStore.length then
      clustersLoop c now simulate
        (hnswBasedClustering c (s.warmStore.map (fun r =>
          MemoryRecord.ofMeta { r.meta with currentTier := some Tier.WARM }
            (c.env.dq16 r.embedding)))) s []
    else chunkLoop c now simulate (chunksOf c.cfg.consolidationChunkSize s.warmStore) s [] :
    Except String (List RecordMeta × SCMPState)) with
  | .error e => .error ("Consolidation failed: " ++ e)
  | .ok (allUpdated, s1) =>
    let s2 := if simulate then s1 else allUpdated.foldl (fun st m => updateRecord m st) s1
    .ok (allUpdated, { s2 with recordsSinceConsolidation := 0 })

/-- A record view produced by `getAllRecords()`: HOT and WARM views come from
the live index metadata (no embedding), COLD views from the store rows with
dequantized embeddings; `currentTier` is overridden per source. -/
structure RecordView where
  meta : RecordMeta
  embedding : Option (List ℝ)

/-- The enumeration body of `getAllRecords()`. -/
noncomputable def getAllRecordsCore (s : SCMPState) : List RecordView :=
  s.hnswHot.getAllMetadata.map (fun m =>
    { meta := { m with currentTier := some Tier.HOT }, embedding := none })
  ++ s.hnswWarm.getAllMetadata.map (fun m =>
    { meta := { m with currentTier := some Tier.WARM }, embedding := none })
  ++ s.coldStore.map (fun r =>
    { meta := { r.meta with currentTier := some Tier.COLD },
      embedding := some (dequantizeInt8 r.embedding) })

/-- `getAllRecords()`. -/
noncomputable def getAllRecords (s : SCMPState) : Except String (List RecordView) :=
  if s.inited = false then .error "SCMP not initialized" else .ok (getAllRecordsCore s)

/-- The body of `quarantine(id)` (its internal try/catch never rethrows):
soft-delete the WARM index node through the handle stored on the WARM store
row and delete the row; delete the COLD row; soft-delete the HOT index node
through the first live HOT metadata entry carrying this id together with a
handle; bump the deletion counter (threshold compaction runs via
`setImmediate`). -/
def quarantineCore (id : String) (s : SCMPState) : SCMPState :=
  let warmPart : HNSW RecordMeta × List Row :=
    match rowGet s.warmStore id with
    | some warmRec =>
      (match warmRec.meta.hnswWarmId with
       | some h => s.hnswWarm.softDelete h
       | none => s.hnswWarm,
       rowDelete s.warmStore id)
    | none => (s.hnswWarm, s.warmStore)
  let coldStore1 :=
    match rowGet s.coldStore id with
    | some _ => rowDelete s.coldStore id
    | none => s.coldStore
  let hot1 :=
    match s.hnswHot.getAllMetadata.find? (fun m => m.id == id && m.hnswHotId.isSome) with
    | some m =>
      match m.hnswHotId with
      | some h => s.hnswHot.softDelete h
      | none => s.hnswHot
    | none => s.hnswHot
  { s with hnswWarm := warmPart.1, warmStore := warmPart.2, coldStore := coldStore1,
           hnswHot := hot1, deletionsSinceCompaction := s.deletionsSinceCompaction + 1 }

/-- `quarantine(id)`. -/
def quarantine (id : String) (s : SCMPState) : Except String SCMPState :=
  if s.inited = false then .error "SCMP not initialized" else .ok (quarantineCore id s)

/-- The verification loop of `verifyIntegrity()`: over a snapshot of the
record views, recompute `hash(text + salt)`; on mismatch record the id and
quarantine it. -/
def verifyLoop (env : Env) : List RecordView → SCMPState → List String →
    List String × SCMPState
  | [], s, acc => (acc, s)
  | v :: rest, s, acc =>
    if env.sha (v.meta.text ++ s.salt) ≠ v.meta.integrity_hash then
      verifyLoop env rest (quarantineCore v.meta.id s) (acc ++ [v.meta.id])
    else verifyLoop env rest s acc

/-- `verifyIntegrity()`. -/
noncomputable def verifyIntegrity (env : Env) (s : SCMPState) :
    Except String (List String × SCMPState) :=
  if s.inited = false then .error "SCMP not initialized" else
  .ok (verifyLoop env (getAllRecordsCore s) s [])

/-- A constant stub environment (an in-memory fake in the sense of §9's
capability injection), used to instantiate witnesses. -/
def trivialEnv : Env :=
  { embed := fun _ => [1], generate := fun _ => "SUMMARY", sha := fun t => t,
    hashEmbedding := fun v => toString v.length,
    searchBQ := fun idx _ k => (idx.liveNodes.map
      (fun n => { metadata := n.meta, embedding := some n.vector, score := 1 })).take k,
    searchBQId := fun _ _ _ => [], hcluster := fun vs => [vs],
    q16 := fun v => v, dq16 := fun v => v }

/-- Modelled from the spec: the arbitrary metadata equality filter §4.6
ascribes to search — every filter key/value pair must equal the record's
metadata value under that key.  (Defined from the spec's words, for
comparison; the source reads no such keys.) -/
def matchesMetadataFilters (filters : Filters) (m : RecordMeta) : Prop :=
  ∀ kv ∈ filters.metadata,
    (m.metadata.find? (fun e => e.1 == kv.1)).map (fun e => e.2) = some kv.2

/-- A metadata object shaped the way `applyPromotion` leaves HOT index
metadata: the `toJSON()` snapshot is taken before the returned handle is
assigned, so `hnswHotId` is absent; here with a metadata key and a matching
integrity hash under the identity-hash stub and salt "cs". -/
def c8Meta : RecordMeta :=
  { id := "r1", text := "t", timestamp := 0, lastAccessed := 0, episodic := true,
    importance := 0, usage_count := 0, semantic_cluster_id := none,
    integrity_hash := "tcs", currentTier := some Tier.HOT,
    metadata := [("topic", "x")], hnswHotId := none, hnswWarmId := none }

/-- The same HOT-shaped metadata with an integrity hash that no longer
matches its text (the corruption `verify_integrity` detects). -/
def c7Meta : RecordMeta :=
  { c8Meta with integrity_hash := "bad" }

/-- A fresh instance whose HOT index holds one live node with the given
metadata — the state a promotion immediately leaves behind. -/
def oneHotState (m : RecordMeta) : SCMPState :=
  { freshState "cs" with
      hnswHot := { nodes := [{ handle := 0, vector := [1], meta := m, deleted := false }],
                   nextHandle := 1 } }

/-- The record the rescore loop wraps the `c8Meta` candidate into. -/
noncomputable def c8Record : MemoryRecord :=
  MemoryRecord.ofMeta { c8Meta with currentTier := some Tier.HOT } [1]

/-- The result entry the search over `oneHotState c8Meta` returns. -/
noncomputable def c8Entry : ResultEntry :=
  { meta := c8Record.toJSON, score := 1 * c8Record.effective_weight 0,
    simulatedTier := Tier.HOT, similarity := 1 }

/-- A WARM store row with importance 0, creation time 0 and no usage. -/
def wRow (id text : String) (embedding : List ℝ) : Row :=
  { meta := { id := id, text := text, timestamp := 0, lastAccessed := 0, episodic := true,
              importance := 0, usage_count := 0, semantic_cluster_id := none,
              integrity_hash := "h", currentTier := some Tier.WARM, metadata := [],
              hnswHotId := none, hnswWarmId := none },
    embedding := embedding }

/-- A fresh instance with two WARM rows (embeddings of different lengths, so
the length-based fingerprint stub distinguishes them). -/
def warm2State : SCMPState :=
  { freshState "cs" with warmStore := [wRow "a" "ta" [0], wRow "b" "tb" [0, 0]] }

/-- A fresh instance with two COLD rows. -/
def cold2State : SCMPState :=
  { freshState "cs" with
      coldStore := [{ meta := (wRow "a" "ta" [0]).meta, embedding := [0] },
                    { meta := (wRow "b" "tb" [0]).meta, embedding := [0] }] }

/-- The default configuration with a COLD scan chunk size of 1. -/
noncomputable def cfgChunk1 : Config :=
  { defaultConfig with coldSearchChunkSize := 1 }

/-- The cluster records `consolidate` recovers from `warm2State`'s WARM rows
(one chunk, one cluster under the stub clusterer, both rows recovered through
their length-fingerprint hashes). -/
noncomputable def c1Records : List MemoryRecord :=
  [MemoryRecord.ofMeta { (wRow "a" "ta" [0]).meta with currentTier := some Tier.WARM } [0],
   MemoryRecord.ofMeta { (wRow "b" "tb" [0, 0]).meta with currentTier := some Tier.WARM }
     [0, 0]]

end SCMP

namespace SCMP

/-! ### Journal invariant lemmas (claims C3 and C10) -/

/-- The journal-counter invariant: the instance is initialized, the persisted
counter mirrors the in-memory counter, every stored entry id is bounded by the
counter, and the stored ids strictly increase in store order. -/
def JournalInv (s : SCMPState) : Prop :=
  s.inited = true ∧ s.metaJournalCounter.getD 0 = s.journalCounter ∧
  (∀ e ∈ s.journalStore, e.id ≤ s.journalCounter) ∧
  List.Pairwise (· < ·) (journalIds s)

theorem jPut_append (st : List JournalEntry) (e : JournalEntry)
    (h : ∀ o ∈ st, o.id ≠ e.id) : jPut st e = st ++ [e] := by
  unfold jPut
  rw [if_neg]
  simp only [List.any_eq_true, beq_iff_eq, not_exists, not_and]
  intro o ho
  simpa using h o ho

theorem appendJournal_noFault (c : Ctx) (now : ℤ) (record : MemoryRecord) (s : SCMPState)
    (hp : c.faults.metaPut = false) (hj : c.faults.journalPut = false)
    (hi : s.inited = true) :
    appendJournal c now record s =
      .ok { s with journalCounter := s.journalCounter + 1,
                   metaJournalCounter := some (s.journalCounter + 1),
                   journalStore := jPut s.journalStore
                     { id := s.journalCounter + 1, timestamp := now, record := record.toJSON } } := by
  unfold appendJournal incrementJournalCounter
  simp [hi, hp, hj]

theorem appendJournal_journalFault (c : Ctx) (now : ℤ) (record : MemoryRecord) (s : SCMPState)
    (hp : c.faults.metaPut = false) (hj : c.faults.journalPut = true)
    (hi : s.inited = true) :
    appendJournal c now record s =
      .ok { s with journalCounter := s.journalCounter + 1,
                   metaJournalCounter := some (s.journalCounter + 1) } := by
  unfold appendJournal incrementJournalCounter
  simp [hi, hp, hj]

theorem journalStep_inv (c : Ctx) (s : SCMPState) (op : JournalOp)
    (hp : c.faults.metaPut = false) (hj : c.faults.journalPut = false)
    (hs : JournalInv s) : JournalInv (journalStep c s op) := by
  obtain ⟨hi, hm, hb, hpw⟩ := hs
  cases op with
  | restart =>
    refine ⟨rfl, rfl, ?_, hpw⟩
    intro e he
    show e.id ≤ s.metaJournalCounter.getD 0
    rw [hm]
    exact hb e he
  | append now record =>
    have hid : ∀ o ∈ s.journalStore, o.id ≠ s.journalCounter + 1 := by
      intro o ho
      have := hb o ho
      omega
    have hput := jPut_append s.journalStore
      { id := s.journalCounter + 1, timestamp := now, record := record.toJSON } hid
    simp only [journalStep, appendJournal_noFault c now record s hp hj hi, hput]
    refine ⟨hi, rfl, ?_, ?_⟩
    · intro e he
      show e.id ≤ s.journalCounter + 1
      rcases List.mem_append.mp he with h1 | h2
      · have := hb e h1
        omega
      · simp only [List.mem_singleton] at h2
        simp [h2]
    · show List.Pairwise (· < ·)
        (List.map (fun e => e.id)
          (s.journalStore ++ [{ id := s.journalCounter + 1, timestamp := now,
                                record := record.toJSON }]))
      rw [List.map_append, List.pairwise_append]
      refine ⟨hpw, by simp, ?_⟩
      intro x hx y hy
      simp only [List.mem_map] at hx
      obtain ⟨e, he, hex⟩ := hx
      simp only [List.map_cons, List.map_nil, List.mem_singleton] at hy
      subst hy
      subst hex
      have := hb e he
      omega

theorem journalRun_inv (c : Ctx) (ops : List JournalOp) (s : SCMPState)
    (hp : c.faults.metaPut = false) (hj : c.faults.journalPut = false)
    (hs : JournalInv s) : JournalInv (journalRun c s ops) := by
  induction ops generalizing s with
  | nil => exact hs
  | cons op rest ih =>
    exact ih (journalStep c s op) (journalStep_inv c s op hp hj hs)

theorem freshState_inv (salt : String) : JournalInv (freshState salt) := by
  refine ⟨rfl, rfl, ?_, ?_⟩ <;> simp [freshState, journalIds]

/-- C3: journal entry ids strictly increase across every sequence of
`appendJournal` calls, also across restarts: after any interleaving of appends
and restarts from a fresh instance, the stored ids are pairwise strictly
increasing in append order, and the persisted `journal_counter` row always
equals the in-memory counter.  Moreover the counter is persisted on every
increment before the entry is stored: even when storing the journal entry
itself fails, the incremented counter has already reached the meta store while
the journal is left without the entry. -/
theorem journal_ids_strictly_monotonic (env : Env) (cfg : Config) (salt : String)
    (ops : List JournalOp) :
    List.Pairwise (· < ·) (journalIds (journalRun ⟨env, cfg, noFaults⟩ (freshState salt) ops)) ∧
    (journalRun ⟨env, cfg, noFaults⟩ (freshState salt) ops).metaJournalCounter.getD 0 =
      (journalRun ⟨env, cfg, noFaults⟩ (freshState salt) ops).journalCounter ∧
    (∀ (now : ℤ) (record : MemoryRecord),
      appendJournal ⟨env, cfg, { noFaults with journalPut := true }⟩ now record
          (journalRun ⟨env, cfg, noFaults⟩ (freshState salt) ops) =
        .ok { journalRun ⟨env, cfg, noFaults⟩ (freshState salt) ops with
                journalCounter :=
                  (journalRun ⟨env, cfg, noFaults⟩ (freshState salt) ops).journalCounter + 1,
                metaJournalCounter :=
                  some ((journalRun ⟨env, cfg, noFaults⟩ (freshState salt) ops).journalCounter + 1) }) := by
  have hinv := journalRun_inv ⟨env, cfg, noFaults⟩ ops (freshState salt) rfl rfl
    (freshState_inv salt)
  obtain ⟨hi, hm, _, hpw⟩ := hinv
  refine ⟨hpw, hm, ?_⟩
  intro now record
  exact appendJournal_journalFault ⟨env, cfg, { noFaults with journalPut := true }⟩
    now record _ rfl rfl hi

/-- C10: `rotateJournal` discards the whole log when it holds at least
`journalRotationSize` entries and otherwise changes nothing; in both cases the
in-memory and persisted journal counters, the other stores and the indexes are
untouched, and a subsequent `appendJournal` produces an id strictly greater
than every pre-rotation entry id, so ids keep increasing after rotation. -/
theorem rotateJournal_discards_all (cfg : Config) (s : SCMPState)
    (hi : s.inited = true)
    (hb : ∀ e ∈ s.journalStore, e.id ≤ s.journalCounter) :
    ∃ s', rotateJournal cfg s = .ok s' ∧
      s'.journalStore =
        (if cfg.journalRotationSize ≤ s.journalStore.length then [] else s.journalStore) ∧
      s'.journalCounter = s.journalCounter ∧
      s'.metaJournalCounter = s.metaJournalCounter ∧
      s'.warmStore = s.warmStore ∧ s'.coldStore = s.coldStore ∧
      s'.hnswHot = s.hnswHot ∧ s'.hnswWarm = s.hnswWarm ∧
      (∀ (env : Env) (now : ℤ) (record : MemoryRecord),
        ∃ s'', appendJournal ⟨env, cfg, noFaults⟩ now record s' = .ok s'' ∧
          journalIds s'' = journalIds s' ++ [s.journalCounter + 1] ∧
          ∀ e ∈ s.journalStore, e.id < s.journalCounter + 1) := by
  by_cases hlen : s.journalStore.length < cfg.journalRotationSize
  · refine ⟨s, by simp [rotateJournal, hi, hlen], ?_, rfl, rfl, rfl, rfl, rfl, rfl, ?_⟩
    · rw [if_neg (by omega)]
    · intro env now record
      have hid : ∀ o ∈ s.journalStore, o.id ≠ s.journalCounter + 1 := by
        intro o ho
        have := hb o ho
        omega
      have hput := jPut_append s.journalStore
        { id := s.journalCounter + 1, timestamp := now, record := record.toJSON } hid
      refine ⟨_, appendJournal_noFault ⟨env, cfg, noFaults⟩ now record s rfl rfl hi, ?_, ?_⟩
      · show List.map (fun e => e.id)
          (jPut s.journalStore { id := s.journalCounter + 1, timestamp := now,
                                 record := record.toJSON }) =
          List.map (fun e => e.id) s.journalStore ++ [s.journalCounter + 1]
        rw [hput, List.map_append]
        rfl
      · intro e he
        have := hb e he
        omega
  · refine ⟨{ s with journalStore := [] }, by simp [rotateJournal, hi, hlen], ?_,
      rfl, rfl, rfl, rfl, rfl, rfl, ?_⟩
    · rw [if_pos (by omega)]
    · intro env now record
      refine ⟨_, appendJournal_noFault ⟨env, cfg, noFaults⟩ now record _ rfl rfl hi, ?_, ?_⟩
      · simp [journalIds, jPut]
      · intro e he
        have := hb e he
        omega

/-- Witness for C10 at a concrete state: a fresh instance with one journal
entry and counter 1, below the default rotation size, so rotation keeps the
journal; the hypotheses are discharged on that state. -/
theorem rotateJournal_discards_all_witness :
    (freshState "s").inited = true ∧
    (∀ e ∈ (freshState "s").journalStore, e.id ≤ (freshState "s").journalCounter) ∧
    ∃ s', rotateJournal defaultConfig (freshState "s") = .ok s' ∧
      s'.journalStore =
        (if defaultConfig.journalRotationSize ≤ (freshState "s").journalStore.length then []
         else (freshState "s").journalStore) ∧
      s'.journalCounter = (freshState "s").journalCounter ∧
      s'.metaJournalCounter = (freshState "s").metaJournalCounter ∧
      s'.warmStore = (freshState "s").warmStore ∧ s'.coldStore = (freshState "s").coldStore ∧
      s'.hnswHot = (freshState "s").hnswHot ∧ s'.hnswWarm = (freshState "s").hnswWarm ∧
      (∀ (env : Env) (now : ℤ) (record : MemoryRecord),
        ∃ s'', appendJournal ⟨env, defaultConfig, noFaults⟩ now record s' = .ok s'' ∧
          journalIds s'' = journalIds s' ++ [(freshState "s").journalCounter + 1] ∧
          ∀ e ∈ (freshState "s").journalStore, e.id < (freshState "s").journalCounter + 1) :=
  ⟨rfl, by simp [freshState],
   rotateJournal_discards_all defaultConfig (freshState "s") rfl (by simp [freshState])⟩

/-! ### Record weight invariants (claim C9) -/

theorem clamp_unit_interval (x : ℝ) : 0 ≤ max 0 (min 1 x) ∧ max 0 (min 1 x) ≤ 1 :=
  ⟨le_max_left 0 (min 1 x), max_le zero_le_one (min_le_left 1 x)⟩

theorem halfLifeMs_pos : (0 : ℝ) < halfLifeMs := by norm_num [halfLifeMs]

theorem scaleMs_pos : (0 : ℝ) < scaleMs := by norm_num [scaleMs]

theorem decay_score_mem (r : MemoryRecord) (now : ℤ) (ht : r.timestamp ≤ now) :
    0 < r.decay_score now ∧ r.decay_score now ≤ 1 := by
  have hage : (0 : ℝ) ≤ ((now - r.timestamp : ℤ) : ℝ) := by
    have : (0 : ℤ) ≤ now - r.timestamp := by omega
    exact_mod_cast this
  refine ⟨Real.exp_pos _, Real.exp_le_one_iff.mpr ?_⟩
  apply div_nonpos_of_nonpos_of_nonneg (neg_nonpos.mpr hage) (le_of_lt halfLifeMs_pos)

theorem temporal_weight_mem (r : MemoryRecord) (now : ℤ) (ht : r.timestamp ≤ now) :
    0 < r.temporal_weight now ∧ r.temporal_weight now ≤ 1 := by
  have hage : (0 : ℝ) ≤ ((now - r.timestamp : ℤ) : ℝ) := by
    have : (0 : ℤ) ≤ now - r.timestamp := by omega
    exact_mod_cast this
  have hq : (0 : ℝ) ≤ ((now - r.timestamp : ℤ) : ℝ) / scaleMs :=
    div_nonneg hage (le_of_lt scaleMs_pos)
  unfold MemoryRecord.temporal_weight
  constructor
  · positivity
  · rw [div_le_one (by linarith)]
    linarith

/-- C9: for a record whose importance is in `[0,1]` (as the constructor clamp
guarantees) and whose timestamp is not later than the clock,
`effective_weight = importance * decay_score * temporal_weight` lies in
`[0,1]`, with `decay_score ∈ (0,1]` and `temporal_weight ∈ (0,1]`; the
constructors clamp importance into `[0,1]`, and neither `access` nor
consolidation's 0.8 attenuation moves importance outside `[0,1]`. -/
theorem effective_weight_unit_interval (r : MemoryRecord) (now : ℤ)
    (h0 : 0 ≤ r.importance) (h1 : r.importance ≤ 1) (ht : r.timestamp ≤ now) :
    (0 ≤ r.effective_weight now ∧ r.effective_weight now ≤ 1) ∧
    (0 < r.decay_score now ∧ r.decay_score now ≤ 1) ∧
    (0 < r.temporal_weight now ∧ r.temporal_weight now ≤ 1) ∧
    (∀ (id : String) (embedding : List ℝ) (text : String) (n : ℤ) (episodic : Bool)
       (importance : ℝ) (integrity embHash : String) (md : List (String × String)),
       0 ≤ (MemoryRecord.create id embedding text n episodic importance integrity
              (some embHash) md).importance ∧
       (MemoryRecord.create id embedding text n episodic importance integrity
          (some embHash) md).importance ≤ 1) ∧
    (∀ (m : RecordMeta) (embedding : List ℝ),
       0 ≤ (MemoryRecord.ofMeta m embedding).importance ∧
       (MemoryRecord.ofMeta m embedding).importance ≤ 1) ∧
    (0 ≤ (consolidateAttenuate r).importance ∧ (consolidateAttenuate r).importance ≤ 1) ∧
    (∀ (simulate : Bool) (n : ℤ),
       (r.access simulate n).importance = r.importance ∧
       (r.access simulate n).timestamp = r.timestamp) := by
  obtain ⟨hd0, hd1⟩ := decay_score_mem r now ht
  obtain ⟨ht0, ht1⟩ := temporal_weight_mem r now ht
  refine ⟨⟨?_, ?_⟩, ⟨hd0, hd1⟩, ⟨ht0, ht1⟩, ?_, ?_, ⟨?_, ?_⟩, ?_⟩
  · exact mul_nonneg (mul_nonneg h0 (le_of_lt hd0)) (le_of_lt ht0)
  · exact mul_le_one₀ (mul_le_one₀ h1 (le_of_lt hd0) hd1) (le_of_lt ht0) ht1
  · intro id embedding text n episodic importance integrity embHash md
    exact clamp_unit_interval importance
  · intro m embedding
    exact clamp_unit_interval m.importance
  · exact mul_nonneg h0 (by norm_num)
  · calc r.importance * (0.8 : ℝ) ≤ 1 * (0.8 : ℝ) :=
        mul_le_mul_of_nonneg_right h1 (by norm_num)
    _ ≤ 1 := by norm_num
  · intro simulate n
    unfold MemoryRecord.access
    constructor <;> split <;> rfl

/-- Witness for C9 at a concrete record: a freshly created record (importance
input 0.5, clamped to 0.5) evaluated at its own creation time. -/
theorem effective_weight_unit_interval_witness :
    (0 ≤ (MemoryRecord.create "i" [1] "t" 0 true 0.5 "h" (some "e") []).importance ∧
     (MemoryRecord.create "i" [1] "t" 0 true 0.5 "h" (some "e") []).importance ≤ 1 ∧
     (MemoryRecord.create "i" [1] "t" 0 true 0.5 "h" (some "e") []).timestamp ≤ 0) ∧
    (0 ≤ (MemoryRecord.create "i" [1] "t" 0 true 0.5 "h" (some "e") []).effective_weight 0 ∧
     (MemoryRecord.create "i" [1] "t" 0 true 0.5 "h" (some "e") []).effective_weight 0 ≤ 1) := by
  have hc := clamp_unit_interval (0.5 : ℝ)
  have h0 : 0 ≤ (MemoryRecord.create "i" [1] "t" 0 true 0.5 "h" (some "e") []).importance := hc.1
  have h1 : (MemoryRecord.create "i" [1] "t" 0 true 0.5 "h" (some "e") []).importance ≤ 1 := hc.2
  have ht : (MemoryRecord.create "i" [1] "t" 0 true 0.5 "h" (some "e") []).timestamp ≤ 0 :=
    le_refl 0
  exact ⟨⟨h0, h1, ht⟩,
    (effective_weight_unit_interval (MemoryRecord.create "i" [1] "t" 0 true 0.5 "h" (some "e") [])
      0 h0 h1 ht).1⟩

/-! ### Store access lemmas -/

theorem rowGet_rowDelete_self (st : List Row) (id : String) :
    rowGet (rowDelete st id) id = none := by
  unfold rowGet rowDelete
  rw [List.find?_eq_none]
  intro x hx
  have hp := List.of_mem_filter hx
  simp only [bne_iff_ne, ne_eq] at hp
  simp [hp]

theorem rowGet_rowDelete_ne (st : List Row) (id j : String) (h : j ≠ id) :
    rowGet (rowDelete st id) j = rowGet st j := by
  induction st with
  | nil => rfl
  | cons r t ih =>
    by_cases hr : r.meta.id = id
    · have hb : (r.meta.id != id) = false := by simp [hr]
      have hj : (r.meta.id == j) = false := by
        rw [hr]
        exact beq_false_of_ne (fun e => h e.symm)
      unfold rowDelete rowGet at ih ⊢
      rw [List.filter_cons, hb, if_neg (by simp), List.find?_cons_of_neg _ (by simp [hj])]
      exact ih
    · have hb : (r.meta.id != id) = true := bne_iff_ne.mpr hr
      unfold rowDelete rowGet at ih ⊢
      rw [List.filter_cons, hb, if_pos rfl]
      cases hq : (r.meta.id == j) with
      | true =>
        rw [List.find?_cons_of_pos _ (by simp [hq]), List.find?_cons_of_pos _ (by simp [hq])]
      | false =>
        rw [List.find?_cons_of_neg _ (by simp [hq]), List.find?_cons_of_neg _ (by simp [hq])]
        exact ih

theorem getAllMetadata_compact {μ : Type} (t : HNSW μ) :
    (t.compact).getAllMetadata = t.getAllMetadata := by
  simp [HNSW.compact, HNSW.getAllMetadata, HNSW.liveNodes, List.filter_filter]

/-! ### Promotion (claim C6) -/

/-- C6: a record is promoted to HOT exactly when
`effective_weight ≥ I_hot OR usage_count ≥ U_hot`.  When the predicate fails,
`applyPromotion` returns `null` and changes nothing (for any `simulate`).
When it holds and the call is not simulating, the record's rows are removed
from the WARM and COLD stores (other ids untouched), the embedding is
inserted into the HOT index as a live node whose handle is recorded on the
record, the record's WARM index handle is soft-deleted when present, and
`currentTier` becomes HOT; the journal and its counter are untouched. -/
theorem applyPromotion_spec (c : Ctx) (now : ℤ) (r : MemoryRecord) (s : SCMPState)
    (hi : s.inited = true) :
    (∀ simulate, ¬ (c.cfg.I_hot ≤ r.effective_weight now ∨ c.cfg.U_hot ≤ r.usage_count) →
       applyPromotion c now r simulate s = .ok (none, r, s)) ∧
    ((c.cfg.I_hot ≤ r.effective_weight now ∨ c.cfg.U_hot ≤ r.usage_count) →
       ∃ r' s', applyPromotion c now r false s = .ok (some Tier.HOT, r', s') ∧
         r' = { r with hnswHotId := some s.hnswHot.nextHandle, currentTier := Tier.HOT } ∧
         rowGet s'.warmStore r.id = none ∧
         rowGet s'.coldStore r.id = none ∧
         (∀ j, j ≠ r.id → rowGet s'.warmStore j = rowGet s.warmStore j) ∧
         (∀ j, j ≠ r.id → rowGet s'.coldStore j = rowGet s.coldStore j) ∧
         (∃ n ∈ s'.hnswHot.liveNodes, n.handle = s.hnswHot.nextHandle ∧
            n.vector = r.embedding ∧ n.meta = r.toJSON) ∧
         (∀ h, r.hnswWarmId = some h → s'.hnswWarm = s.hnswWarm.softDelete h) ∧
         (r.hnswWarmId = none → s'.hnswWarm = s.hnswWarm) ∧
         s'.journalStore = s.journalStore ∧
         s'.metaJournalCounter = s.metaJournalCounter ∧
         s'.journalCounter = s.journalCounter) := by
  constructor
  · intro simulate hn
    unfold applyPromotion
    rw [if_neg (by simp [hi]), if_pos]
    exact hn
  · intro hp
    have hAP : applyPromotion c now r false s =
        .ok (some Tier.HOT,
             { r with hnswHotId := some s.hnswHot.nextHandle, currentTier := Tier.HOT },
             { s with warmStore := rowDelete s.warmStore r.id,
                      coldStore := rowDelete s.coldStore r.id,
                      hnswHot := (s.hnswHot.insertWithMetadata r.embedding r.toJSON).2,
                      hnswWarm := match r.hnswWarmId with
                                  | some h => s.hnswWarm.softDelete h
                                  | none => s.hnswWarm }) := by
      unfold applyPromotion
      rw [if_neg (by simp [hi]),
        if_neg (not_not_intro (show shouldPromote c.cfg now r from hp))]
      rfl
    rw [hAP]
    refine ⟨_, _, rfl, rfl, ?_, ?_, ?_, ?_, ?_, ?_, ?_, rfl, rfl, rfl⟩
    · exact rowGet_rowDelete_self s.warmStore r.id
    · exact rowGet_rowDelete_self s.coldStore r.id
    · intro j hj
      exact rowGet_rowDelete_ne s.warmStore r.id j hj
    · intro j hj
      exact rowGet_rowDelete_ne s.coldStore r.id j hj
    · refine ⟨{ handle := s.hnswHot.nextHandle, vector := r.embedding,
                meta := r.toJSON, deleted := false }, ?_, rfl, rfl, rfl⟩
      unfold HNSW.insertWithMetadata HNSW.liveNodes
      simp
    · intro h hw
      simp [hw]
    · intro hw
      simp [hw]

/-- Witness for C6: a freshly created record with importance 0 and usage 0 on
a fresh instance does not satisfy the promotion predicate, and
`applyPromotion` leaves everything unchanged. -/
theorem applyPromotion_spec_witness :
    (freshState "w").inited = true ∧
    ¬ (defaultConfig.I_hot ≤
         (MemoryRecord.create "i" [1] "t" 0 true 0 "h" (some "e") []).effective_weight 0 ∨
       defaultConfig.U_hot ≤
         (MemoryRecord.create "i" [1] "t" 0 true 0 "h" (some "e") []).usage_count) ∧
    applyPromotion ⟨trivialEnv, defaultConfig, noFaults⟩ 0
        (MemoryRecord.create "i" [1] "t" 0 true 0 "h" (some "e") []) true (freshState "w") =
      .ok (none, MemoryRecord.create "i" [1] "t" 0 true 0 "h" (some "e") [], freshState "w") := by
  have himp : (MemoryRecord.create "i" [1] "t" 0 true 0 "h" (some "e") []).importance = 0 := by
    show max 0 (min 1 (0 : ℝ)) = 0
    norm_num
  have heff : (MemoryRecord.create "i" [1] "t" 0 true 0 "h" (some "e") []).effective_weight 0 = 0 := by
    unfold MemoryRecord.effective_weight
    rw [himp, zero_mul, zero_mul]
  have hn : ¬ (defaultConfig.I_hot ≤
         (MemoryRecord.create "i" [1] "t" 0 true 0 "h" (some "e") []).effective_weight 0 ∨
       defaultConfig.U_hot ≤
         (MemoryRecord.create "i" [1] "t" 0 true 0 "h" (some "e") []).usage_count) := by
    rw [heff]
    rintro (hle | hle)
    · norm_num [defaultConfig] at hle
    · norm_num [defaultConfig, MemoryRecord.create] at hle
  exact ⟨rfl, hn,
    (applyPromotion_spec ⟨trivialEnv, defaultConfig, noFaults⟩ 0
      (MemoryRecord.create "i" [1] "t" 0 true 0 "h" (some "e") []) (freshState "w") rfl).1 true hn⟩

/-! ### Prune (claim C5) -/

open Classical in
theorem pruneLoop_spec (cfg : Config) (now : ℤ) (records : List MemoryRecord)
    (s : SCMPState) (acc : List String) :
    pruneLoop cfg now false records s acc =
      (acc ++ (records.filter (fun r => decide (r.effective_weight now < cfg.epsilon ∧
          r.usage_count = 0))).map (fun r => r.id),
       { s with
           coldStore := ((records.filter (fun r => decide (r.effective_weight now < cfg.epsilon ∧
               r.usage_count = 0))).map (fun r => r.id)).foldl rowDelete s.coldStore,
           deletionsSinceCompaction := s.deletionsSinceCompaction +
             (records.filter (fun r => decide (r.effective_weight now < cfg.epsilon ∧
               r.usage_count = 0))).length }) := by
  induction records generalizing s acc with
  | nil => simp [pruneLoop]
  | cons r rest ih =>
    by_cases hc : r.effective_weight now < cfg.epsilon ∧ r.usage_count = 0
    · have hfc : List.filter
          (fun r => decide (r.effective_weight now < cfg.epsilon ∧ r.usage_count = 0))
          (r :: rest) =
        r :: List.filter
          (fun r => decide (r.effective_weight now < cfg.epsilon ∧ r.usage_count = 0)) rest := by
        simp [List.filter_cons, hc]
      simp only [pruneLoop, if_pos hc, Bool.false_eq_true, if_false]
      rw [ih, hfc]
      simp only [List.map_cons, List.length_cons, List.foldl_cons, List.append_assoc,
        List.singleton_append]
      rw [Prod.mk.injEq]
      refine ⟨rfl, ?_⟩
      ext <;> simp <;> omega
    · have hfc : List.filter
          (fun r => decide (r.effective_weight now < cfg.epsilon ∧ r.usage_count = 0))
          (r :: rest) =
        List.filter
          (fun r => decide (r.effective_weight now < cfg.epsilon ∧ r.usage_count = 0)) rest := by
        simp [List.filter_cons, hc]
      simp only [pruneLoop, if_neg hc]
      rw [ih, hfc]

theorem foldl_rowDelete_filter (ids : List String) (st : List Row) :
    ids.foldl rowDelete st = st.filter (fun row => decide (row.meta.id ∉ ids)) := by
  induction ids generalizing st with
  | nil => simp
  | cons a t ih =>
    rw [List.foldl_cons, ih]
    unfold rowDelete
    rw [List.filter_filter]
    apply List.filter_congr
    intro row _
    by_cases h1 : row.meta.id = a
    · simp [h1]
    · by_cases h2 : row.meta.id ∈ t
      · simp [h1, h2]
      · simp [h1, h2]

open Classical in
/-- C5: `prune` (not simulating) deletes from the COLD store exactly the rows
whose wrapped record satisfies `effective_weight < epsilon AND
usage_count == 0` and returns exactly their ids; nothing with positive usage
or weight at least epsilon is pruned, the WARM store, journal, persisted
counter and live index metadata are untouched, each deletion increments
`deletionsSinceCompaction`, and compaction (which resets the counter) runs
once the threshold is crossed. -/
theorem prune_exact (c : Ctx) (now : ℤ) (s : SCMPState)
    (hi : s.inited = true) (hpl : s.pruneLock = false) (hcl : s.compactLock = false)
    (hnd : (s.coldStore.map (fun row => row.meta.id)).Nodup) :
    ∃ ids s', prune c now false s = .ok (ids, s') ∧
      ids = (s.coldStore.filter (fun row => decide (pruneCandidate c.cfg now row))).map
        (fun row => row.meta.id) ∧
      (∀ row ∈ s.coldStore, pruneCandidate c.cfg now row ↔ row.meta.id ∈ ids) ∧
      s'.coldStore = s.coldStore.filter (fun row => decide (¬ pruneCandidate c.cfg now row)) ∧
      s'.warmStore = s.warmStore ∧ s'.journalStore = s.journalStore ∧
      s'.metaJournalCounter = s.metaJournalCounter ∧ s'.journalCounter = s.journalCounter ∧
      s'.hnswHot.getAllMetadata = s.hnswHot.getAllMetadata ∧
      s'.hnswWarm.getAllMetadata = s.hnswWarm.getAllMetadata ∧
      (ids = [] → s' = s) ∧
      (ids ≠ [] →
        s'.deletionsSinceCompaction =
          (if c.cfg.compactionThreshold ≤ s.deletionsSinceCompaction + ids.length then 0
           else s.deletionsSinceCompaction + ids.length) ∧
        s'.mutationsSinceLastSave = s.mutationsSinceLastSave + 1) := by
  classical
  have hfm : (s.coldStore.map coldRecord).filter
        (fun r => decide (r.effective_weight now < c.cfg.epsilon ∧ r.usage_count = 0)) =
      (s.coldStore.filter (fun row => decide (pruneCandidate c.cfg now row))).map coldRecord := by
    rw [List.filter_map]
    apply congrArg (List.map coldRecord)
    apply List.filter_congr
    intro row _
    exact decide_eq_decide.mpr (by rw [pruneCandidate])
  have hids : ((s.coldStore.map coldRecord).filter
        (fun r => decide (r.effective_weight now < c.cfg.epsilon ∧ r.usage_count = 0))).map
          (fun r => r.id) =
      (s.coldStore.filter (fun row => decide (pruneCandidate c.cfg now row))).map
        (fun row => row.meta.id) := by
    rw [hfm, List.map_map]
    rfl
  have hlen : ((s.coldStore.map coldRecord).filter
        (fun r => decide (r.effective_weight now < c.cfg.epsilon ∧ r.usage_count = 0))).length =
      ((s.coldStore.filter (fun row => decide (pruneCandidate c.cfg now row))).map
        (fun row => row.meta.id)).length := by
    rw [hfm]
    simp
  set ids := (s.coldStore.filter (fun row => decide (pruneCandidate c.cfg now row))).map
    (fun row => row.meta.id) with hidsdef
  have hmem : ∀ row ∈ s.coldStore, pruneCandidate c.cfg now row ↔ row.meta.id ∈ ids := by
    intro row hrow
    constructor
    · intro hpc
      exact List.mem_map_of_mem _ (List.mem_filter_of_mem hrow (by simpa using hpc))
    · intro hin
      rw [hidsdef] at hin
      obtain ⟨row', hrow', heq⟩ := List.mem_map.mp hin
      have hrow'mem : row' ∈ s.coldStore := List.mem_of_mem_filter hrow'
      have hpc' : pruneCandidate c.cfg now row' := by
        simpa using List.of_mem_filter hrow'
      have hinj : ∀ x ∈ s.coldStore, ∀ y ∈ s.coldStore,
          (fun row => row.meta.id) x = (fun row => row.meta.id) y → x = y :=
        List.inj_on_of_nodup_map hnd
      have : row' = row := hinj row' hrow'mem row hrow heq
      rwa [this] at hpc'
  have hcold : ids.foldl rowDelete s.coldStore =
      s.coldStore.filter (fun row => decide (¬ pruneCandidate c.cfg now row)) := by
    rw [foldl_rowDelete_filter]
    apply List.filter_congr
    intro row hrow
    have := hmem row hrow
    by_cases hpc : pruneCandidate c.cfg now row
    · simp [hpc, this.mp hpc]
    · have : row.meta.id ∉ ids := fun hin => hpc (this.mpr hin)
      simp [hpc, this]
  have hps := pruneLoop_spec c.cfg now (s.coldStore.map coldRecord) s []
  rw [hids, hlen, hcold] at hps
  unfold prune
  rw [if_neg (by simp [hi]), if_neg (by simp [hpl])]
  simp only [hps]
  by_cases hempty : ids = []
  · rw [if_neg (by simp [hempty])]
    refine ⟨ids, _, rfl, rfl, hmem, ?_, rfl, rfl, rfl, rfl, rfl, rfl, ?_, ?_⟩
    · show s.coldStore.filter (fun row => decide (¬ pruneCandidate c.cfg now row)) =
        s.coldStore.filter (fun row => decide (¬ pruneCandidate c.cfg now row))
      rfl
    · intro _
      have hlen0 : ids.length = 0 := by rw [hempty]; rfl
      have hallkeep : s.coldStore.filter
          (fun row => decide (¬ pruneCandidate c.cfg now row)) = s.coldStore := by
        apply List.filter_eq_self.mpr
        intro row hrow
        simp only [decide_eq_true_eq]
        intro hpc
        have := (hmem row hrow).mp hpc
        rw [hempty] at this
        exact absurd this (List.not_mem_nil _)
      rw [hallkeep, hlen0]
      rfl
    · intro hne
      exact absurd hempty hne
  · rw [if_pos (by simp [hempty])]
    by_cases hth : c.cfg.compactionThreshold ≤ s.deletionsSinceCompaction + ids.length
    · rw [if_pos (by simpa using hth)]
      unfold compactHNSW
      rw [if_neg (by simp [hcl])]
      refine ⟨ids, _, rfl, rfl, hmem, rfl, rfl, rfl, rfl, rfl, ?_, ?_, ?_, ?_⟩
      · exact getAllMetadata_compact s.hnswHot
      · exact getAllMetadata_compact s.hnswWarm
      · intro h0
        exact absurd h0 hempty
      · intro _
        rw [if_pos hth]
        exact ⟨rfl, rfl⟩
    · rw [if_neg (by simpa using hth)]
      refine ⟨ids, _, rfl, rfl, hmem, rfl, rfl, rfl, rfl, rfl, rfl, rfl, ?_, ?_⟩
      · intro h0
        exact absurd h0 hempty
      · intro _
        rw [if_neg hth]
        exact ⟨rfl, rfl⟩

open Classical in
/-- Witness for C5 on a fresh instance (empty COLD store): the hypotheses are
discharged and prune returns no ids, changing nothing. -/
theorem prune_exact_witness :
    (freshState "p").inited = true ∧ (freshState "p").pruneLock = false ∧
    (freshState "p").compactLock = false ∧
    ((freshState "p").coldStore.map (fun row => row.meta.id)).Nodup ∧
    ∃ ids s', prune ⟨trivialEnv, defaultConfig, noFaults⟩ 0 false (freshState "p") =
        .ok (ids, s') ∧
      ids = ((freshState "p").coldStore.filter
        (fun row => decide (pruneCandidate defaultConfig 0 row))).map
          (fun row => row.meta.id) :=
  ⟨rfl, rfl, rfl, by simp [freshState],
   match prune_exact ⟨trivialEnv, defaultConfig, noFaults⟩ 0 (freshState "p") rfl rfl rfl
     (by simp [freshState]) with
   | ⟨ids, s', hok, hids, _⟩ => ⟨ids, s', hok, hids⟩⟩

/-! ### Write path error propagation (claim C4) -/

theorem appendJournal_exists (c : Ctx) (now : ℤ) (record : MemoryRecord) (s : SCMPState)
    (hi : s.inited = true) :
    ∃ s1, appendJournal c now record s = .ok s1 ∧ s1.inited = s.inited ∧
      (c.faults.metaPut = true ∨ c.faults.journalPut = true →
        s1.journalStore = s.journalStore) := by
  cases hm : c.faults.metaPut
  · cases hj : c.faults.journalPut
    · exact ⟨_, appendJournal_noFault c now record s hm hj hi, rfl,
        by rintro (h | h) <;> simp_all⟩
    · exact ⟨_, appendJournal_journalFault c now record s hm hj hi, rfl, fun _ => rfl⟩
  · refine ⟨{ s with journalCounter := s.journalCounter + 1 }, ?_, rfl, fun _ => rfl⟩
    unfold appendJournal incrementJournalCounter
    rw [if_neg (by simp [hi])]
    simp [hm]

theorem storeWarm_fault (c : Ctx) (record : MemoryRecord) (s : SCMPState)
    (hi : s.inited = true) (hw : c.faults.warmPut = true) :
    storeWarm c record s = .error "Put failed" := by
  unfold storeWarm
  rw [if_neg (by simp [hi])]
  simp [hw]

theorem storeWarm_ok (c : Ctx) (record : MemoryRecord) (s : SCMPState)
    (hi : s.inited = true) (hw : c.faults.warmPut = false) :
    storeWarm c record s =
      .ok ({ record with hnswWarmId := some s.hnswWarm.nextHandle },
           { s with hnswWarm := (s.hnswWarm.insertWithMetadata record.embedding record.toJSON).2,
                    warmStore := rowPut s.warmStore
                      { meta := MemoryRecord.toJSON
                          { record with hnswWarmId := some s.hnswWarm.nextHandle },
                        embedding := c.env.q16 record.embedding } }) := by
  unfold storeWarm
  rw [if_neg (by simp [hi])]
  simp [hw, HNSW.insertWithMetadata]

/-- C4 (amended): on the write path of `createMemoryRecord`, embedding
failures and WARM-store failures surface to the caller (the call returns a
record exactly when neither faults), but a failure to persist the journal
entry does not: `appendJournal` catches and logs its store errors, so the
call can succeed and return a record while the journal is left without the
entry. -/
theorem createMemoryRecord_surfaces_except_journal (c : Ctx) (now : ℤ)
    (nonce text : String) (options : CreateOptions) (s : SCMPState)
    (hi : s.inited = true) (htext : ¬ text = "") :
    ((createMemoryRecord c now nonce text options s).isOk = true ↔
      (c.faults.embed = false ∧ c.faults.warmPut = false)) ∧
    (∀ r s', createMemoryRecord c now nonce text options s = .ok (r, s') →
      (c.faults.metaPut = true ∨ c.faults.journalPut = true →
        s'.journalStore = s.journalStore)) := by
  unfold createMemoryRecord
  rw [if_neg (by simp [hi]), if_neg (by simp [htext])]
  cases he : c.faults.embed
  · simp only [Bool.false_eq_true, if_false]
    obtain ⟨s1, hap, hin, hjkeep⟩ := appendJournal_exists c now
      (MemoryRecord.create (scmpHash c.env s.salt (text ++ toString now ++ nonce))
        (c.env.embed text) text now options.episodic options.importance
        (scmpHash c.env s.salt text) (some (c.env.hashEmbedding (c.env.embed text)))
        options.metadata) s hi
    cases hw : c.faults.warmPut
    · have hsw := storeWarm_ok c
        (MemoryRecord.create (scmpHash c.env s.salt (text ++ toString now ++ nonce))
          (c.env.embed text) text now options.episodic options.importance
          (scmpHash c.env s.salt text) (some (c.env.hashEmbedding (c.env.embed text)))
          options.metadata) s1 (by rw [hin]; exact hi) hw
      rw [hap]
      simp only [hsw]
      refine ⟨by simp [Except.isOk, Except.toBool], ?_⟩
      intro r s' hok hflt
      simp only [Except.ok.injEq, Prod.mk.injEq] at hok
      have hs' : s'.journalStore = s1.journalStore := by
        rw [← hok.2]
      rw [hs']
      exact hjkeep hflt
    · have hsw := storeWarm_fault c
        (MemoryRecord.create (scmpHash c.env s.salt (text ++ toString now ++ nonce))
          (c.env.embed text) text now options.episodic options.importance
          (scmpHash c.env s.salt text) (some (c.env.hashEmbedding (c.env.embed text)))
          options.metadata) s1 (by rw [hin]; exact hi) hw
      rw [hap]
      simp only [hsw]
      refine ⟨by simp [Except.isOk, Except.toBool], ?_⟩
      intro r s' hok
      exact absurd hok (by simp)
  · refine ⟨by simp [Except.isOk, Except.toBool], ?_⟩
    intro r s' hok
    exact absurd hok (by simp)

/-- Witness for C4's amended theorem on a fresh no-fault instance. -/
theorem createMemoryRecord_surfaces_except_journal_witness :
    (freshState "x").inited = true ∧ ¬ ("hello" : String) = "" ∧
    ((createMemoryRecord ⟨trivialEnv, defaultConfig, noFaults⟩ 0 "n" "hello" {}
        (freshState "x")).isOk = true ↔
      (noFaults.embed = false ∧ noFaults.warmPut = false)) :=
  ⟨rfl, by decide,
   (createMemoryRecord_surfaces_except_journal ⟨trivialEnv, defaultConfig, noFaults⟩ 0 "n"
     "hello" {} (freshState "x") rfl (by decide)).1⟩

/-- Counterexample to C4 as stated: with a failing journal store (and nothing
else failing), `createMemoryRecord` succeeds and returns a record — the
journal gained no entry (though the counter was persisted) and the record was
stored WARM — so a failed journal write does not surface. -/
theorem createMemoryRecord_swallows_journal_failure :
    ((createMemoryRecord ⟨trivialEnv, defaultConfig, { noFaults with journalPut := true }⟩
        0 "n" "hello" {} (freshState "x")).isOk = true) ∧
    ((createMemoryRecord ⟨trivialEnv, defaultConfig, { noFaults with journalPut := true }⟩
        0 "n" "hello" {} (freshState "x")).map (fun p => p.2.journalStore) = .ok []) ∧
    ((createMemoryRecord ⟨trivialEnv, defaultConfig, { noFaults with journalPut := true }⟩
        0 "n" "hello" {} (freshState "x")).map (fun p => p.2.journalCounter) = .ok 1) ∧
    ((createMemoryRecord ⟨trivialEnv, defaultConfig, { noFaults with journalPut := true }⟩
        0 "n" "hello" {} (freshState "x")).map (fun p => p.2.warmStore.length) = .ok 1) :=
  ⟨rfl, rfl, rfl, rfl⟩

/-! ### Cold scan (claim C2) -/

/-- C2 (failing-input evaluation): with a chunk size of 1 and a COLD store of
2 rows, the store operations `_chunkedColdSearch` performs are `count()`
followed by `getAll()`, which returns the entire store (2 rows, more than the
chunk size) in one call; the cursor-based chunked iterator is never invoked.
The claimed `scan_chunks`-bounded access pattern therefore does not occur. -/
theorem chunkedColdSearch_materializes_cold_store :
    (chunkedColdSearch ⟨trivialEnv, cfgChunk1, noFaults⟩ 0 [0] 1 false cold2State).2 =
      [ColdOp.count 2, ColdOp.getAll 2] ∧
    (∀ n, ColdOp.scanChunks n ∉
      (chunkedColdSearch ⟨trivialEnv, cfgChunk1, noFaults⟩ 0 [0] 1 false cold2State).2) ∧
    cfgChunk1.coldSearchChunkSize < 2 := by
  refine ⟨rfl, ?_, by norm_num [cfgChunk1, defaultConfig]⟩
  intro n h
  have h2 : ColdOp.scanChunks n ∈ [ColdOp.count 2, ColdOp.getAll 2] := h
  simp at h2

/-! ### Integrity and quarantine (claim C7) -/

/-- C7 (failing-input evaluation): on a state whose HOT index holds one live
corrupted node whose metadata lacks its own handle — exactly the snapshot
`applyPromotion` stores, since it calls `toJSON()` before assigning
`hnswHotId` — the first `verifyIntegrity` returns `["r1"]` and quarantines
it, but the immediately following call returns `["r1"]` again rather than
the empty set: quarantine found no HOT metadata entry carrying a handle, so
the node was never soft-deleted. -/
theorem verifyIntegrity_second_pass_not_empty :
    ∃ s1, verifyIntegrity trivialEnv (oneHotState c7Meta) = .ok (["r1"], s1) ∧
      ∃ s2, verifyIntegrity trivialEnv s1 = .ok (["r1"], s2) :=
  ⟨_, rfl, _, rfl⟩

/-! ### Simulation-mode tier lemmas -/

theorem applyPromotion_not (c : Ctx) (now : ℤ) (r : MemoryRecord) (simulate : Bool)
    (s : SCMPState) (hi : s.inited = true) (hn : ¬ shouldPromote c.cfg now r) :
    applyPromotion c now r simulate s = .ok (none, r, s) := by
  unfold applyPromotion
  rw [if_neg (by simp [hi]), if_pos hn]

theorem applyDemotion_not (c : Ctx) (now : ℤ) (r : MemoryRecord) (simulate : Bool)
    (s : SCMPState) (hi : s.inited = true) (hn : ¬ shouldDemote c.cfg now r) :
    applyDemotion c now r simulate s = .ok (none, r, s) := by
  unfold applyDemotion
  rw [if_neg (by simp [hi]), if_pos hn]

theorem applyPromotion_simulate (c : Ctx) (now : ℤ) (r : MemoryRecord) (s : SCMPState)
    (hi : s.inited = true) :
    ∃ t, applyPromotion c now r true s = .ok (t, r, s) := by
  by_cases h : shouldPromote c.cfg now r
  · refine ⟨some Tier.HOT, ?_⟩
    unfold applyPromotion
    rw [if_neg (by simp [hi]), if_neg (not_not_intro h)]
    rfl
  · exact ⟨none, applyPromotion_not c now r true s hi h⟩

theorem applyDemotion_simulate (c : Ctx) (now : ℤ) (r : MemoryRecord) (s : SCMPState)
    (hi : s.inited = true) :
    ∃ t, applyDemotion c now r true s = .ok (t, r, s) := by
  by_cases h : shouldDemote c.cfg now r
  · refine ⟨some Tier.WARM, ?_⟩
    unfold applyDemotion
    rw [if_neg (by simp [hi]), if_neg (not_not_intro h)]
    rfl
  · exact ⟨none, applyDemotion_not c now r true s hi h⟩

theorem determineSimulatedTier_skip (c : Ctx) (now : ℤ) (r : MemoryRecord) (s : SCMPState)
    (hi : s.inited = true) (hnp : ¬ shouldPromote c.cfg now r)
    (hnd : ¬ shouldDemote c.cfg now r) :
    determineSimulatedTier c now r true s = .ok (r.currentTier, r, s) := by
  unfold determineSimulatedTier
  rw [applyPromotion_not c now r true s hi hnp]
  simp only []
  rw [applyDemotion_not c now r true s hi hnd]
  rfl

theorem effective_weight_eq_zero (r : MemoryRecord) (now : ℤ) (h : r.importance = 0) :
    r.effective_weight now = 0 := by
  unfold MemoryRecord.effective_weight
  rw [h, zero_mul, zero_mul]

theorem decay_score_at_creation (r : MemoryRecord) (now : ℤ) (h : r.timestamp = now) :
    r.decay_score now = 1 := by
  unfold MemoryRecord.decay_score
  rw [h]
  simp [Real.exp_zero]

theorem not_shouldPromote_zero (cfg : Config) (now : ℤ) (r : MemoryRecord)
    (himp : r.importance = 0) (hI : 0 < cfg.I_hot) (hU : r.usage_count < cfg.U_hot) :
    ¬ shouldPromote cfg now r := by
  unfold shouldPromote
  rw [effective_weight_eq_zero r now himp]
  rintro (h | h)
  · linarith
  · omega

theorem not_shouldDemote_fresh (cfg : Config) (now : ℤ) (r : MemoryRecord)
    (ht : r.timestamp = now) (hD : cfg.D_warm ≤ 1) : ¬ shouldDemote cfg now r := by
  unfold shouldDemote
  rw [decay_score_at_creation r now ht]
  rintro ⟨h, _⟩
  linarith

/-! ### Sorting lemmas -/

theorem insertBy_perm {α : Type} (lt : α → α → Prop) [DecidableRel lt] (a : α)
    (l : List α) : List.Perm (insertBy lt a l) (a :: l) := by
  induction l with
  | nil => exact List.Perm.refl _
  | cons b t ih =>
    unfold insertBy
    split
    · exact List.Perm.refl _
    · exact ((ih.cons b).trans (List.Perm.swap a b t))

theorem sortByRel_perm {α : Type} (lt : α → α → Prop) [DecidableRel lt] (l : List α) :
    List.Perm (sortByRel lt l) l := by
  induction l with
  | nil => exact List.Perm.refl _
  | cons a t ih => exact (insertBy_perm lt a _).trans (ih.cons a)

/-! ### Search filters (claim C8) -/

theorem rescoreLoop_single_skip (c : Ctx) (now : ℤ) (epF : Option Bool) (miF : Option ℝ)
    (res : SearchResult) (s : SCMPState) (acc : List ResultEntry) (e : List ℝ)
    (record : MemoryRecord)
    (hemb : res.embedding = some e) (hne : ¬ e.length = 0) (hi : s.inited = true)
    (hrec : record = (MemoryRecord.ofMeta { res.metadata with
        currentTier := some (res.metadata.currentTier.getD Tier.HOT) } e).access true now)
    (hnp : ¬ shouldPromote c.cfg now record) (hnd : ¬ shouldDemote c.cfg now record)
    (hep : ¬ episodicRejects epF record) (hmi : ¬ minImportanceRejects miF record) :
    rescoreLoop c now epF miF true [res] s acc =
      .ok (acc ++ [{ meta := record.toJSON,
                     score := res.score * record.effective_weight now,
                     simulatedTier := record.currentTier, similarity := res.score }], s) := by
  unfold rescoreLoop
  rw [hemb]
  simp only [if_neg hne]
  rw [← hrec, determineSimulatedTier_skip c now record s hi hnp hnd]
  simp only [if_neg hep, if_neg hmi]
  rfl

theorem c8Record_importance : c8Record.importance = 0 := by
  show max 0 (min 1 c8Meta.importance) = 0
  norm_num [c8Meta]

theorem searchC8_eval :
    search ⟨trivialEnv, defaultConfig, noFaults⟩ 0 "q" 1
        { simulate := true, filters := { metadata := [("topic", "y")] } }
        (oneHotState c8Meta) = .ok ([c8Entry], oneHotState c8Meta) := by
  have hnp : ¬ shouldPromote defaultConfig 0 c8Record :=
    not_shouldPromote_zero _ _ _ c8Record_importance (by norm_num [defaultConfig])
      (by show (0 : ℕ) < defaultConfig.U_hot; norm_num [defaultConfig])
  have hnd : ¬ shouldDemote defaultConfig 0 c8Record :=
    not_shouldDemote_fresh _ _ _ rfl (by norm_num [defaultConfig])
  have h1 : rescoreLoop ⟨trivialEnv, defaultConfig, noFaults⟩ 0 none none true
      [{ metadata := c8Meta, embedding := some [1], score := 1 }] (oneHotState c8Meta) [] =
      .ok ([c8Entry], oneHotState c8Meta) := by
    have := rescoreLoop_single_skip ⟨trivialEnv, defaultConfig, noFaults⟩ 0 none none
      { metadata := c8Meta, embedding := some [1], score := 1 } (oneHotState c8Meta) []
      [1] c8Record rfl (by norm_num) rfl rfl hnp hnd
      (by simp [episodicRejects]) (by simp [minImportanceRejects])
    exact this
  have hstage : search ⟨trivialEnv, defaultConfig, noFaults⟩ 0 "q" 1
      { simulate := true, filters := { metadata := [("topic", "y")] } }
      (oneHotState c8Meta) =
    (match rescoreLoop ⟨trivialEnv, defaultConfig, noFaults⟩ 0 none none true
        [{ metadata := c8Meta, embedding := some [1], score := 1 }] (oneHotState c8Meta) [] with
     | .error e => .error ("Search failed: " ++ e)
     | .ok (rescored, s1) =>
       .ok ((sortByRel (fun a b : ResultEntry => b.score < a.score) rescored).take 1, s1)) := rfl
  rw [hstage, h1]
  rfl

/-- C8 (counterexample): searching with an arbitrary metadata filter key
(`topic = "y"`) still returns the candidate whose metadata holds
`topic = "x"` — the filter key is never consulted. -/
theorem search_returns_metadata_mismatch :
    search ⟨trivialEnv, defaultConfig, noFaults⟩ 0 "q" 1
        { simulate := true, filters := { metadata := [("topic", "y")] } }
        (oneHotState c8Meta) = .ok ([c8Entry], oneHotState c8Meta) ∧
    c8Entry.meta.metadata = [("topic", "x")] ∧
    ¬ matchesMetadataFilters { metadata := [("topic", "y")] } c8Entry.meta := by
  refine ⟨searchC8_eval, rfl, ?_⟩
  intro h
  have := h ("topic", "y") (by simp)
  simp [c8Entry, c8Record, MemoryRecord.ofMeta, MemoryRecord.toJSON, c8Meta] at this

theorem rescoreLoop_filters (c : Ctx) (now : ℤ) (epF : Option Bool) (miF : Option ℝ)
    (simulate : Bool) (l : List SearchResult) :
    ∀ (s : SCMPState) (acc out : List ResultEntry) (s' : SCMPState),
      rescoreLoop c now epF miF simulate l s acc = .ok (out, s') →
      ∀ e ∈ out, e ∈ acc ∨
        ((∀ b, epF = some b → e.meta.episodic = b) ∧
         (∀ m, miF = some m → ¬ m = 0 → ¬ e.meta.importance < m)) := by
  induction l with
  | nil =>
    intro s acc out s' h e he
    simp only [rescoreLoop, Except.ok.injEq, Prod.mk.injEq] at h
    rw [h.1]
    exact Or.inl he
  | cons res rest ih =>
    intro s acc out s' h e he
    unfold rescoreLoop at h
    repeat' (first | split at h | simp only [] at h)
    all_goals try exact absurd h (by simp)
    all_goals try exact ih _ _ _ _ h e he
    all_goals
      rename_i hep hmi
      rcases ih _ _ _ _ h e he with hacc | hgood
      case _ =>
        rcases List.mem_append.mp hacc with h1 | h2
        · exact Or.inl h1
        · simp only [List.mem_singleton] at h2
          subst h2
          refine Or.inr ⟨?_, ?_⟩
          · intro b hb
            rw [hb] at hep
            unfold episodicRejects at hep
            simpa using hep
          · intro m hm hm0
            rw [hm] at hmi
            unfold minImportanceRejects at hmi
            intro hlt
            exact hmi ⟨hm0, hlt⟩
      case _ => exact Or.inr hgood

open Classical in
/-- C8 (amended): `search` applies only the `episodic` and `minImportance`
filters — arbitrary metadata keys in the filter object are never read, so the
result is identical under any metadata filter keys, and every returned entry
satisfies the episodic filter and the (nonzero) minimum-importance filter. -/
theorem search_applies_only_episodic_and_minImportance (c : Ctx) (now : ℤ)
    (queryText : String) (k : ℕ) (simulate : Bool) (ep : Option Bool) (mi : Option ℝ)
    (md md' : List (String × String)) (s : SCMPState) :
    search c now queryText k ⟨simulate, ⟨ep, mi, md⟩⟩ s =
      search c now queryText k ⟨simulate, ⟨ep, mi, md'⟩⟩ s ∧
    (∀ out s', search c now queryText k ⟨simulate, ⟨ep, mi, md⟩⟩ s = .ok (out, s') →
      ∀ e ∈ out, (∀ b, ep = some b → e.meta.episodic = b) ∧
        (∀ m, mi = some m → ¬ m = 0 → ¬ e.meta.importance < m)) := by
  constructor
  · rfl
  · intro out s' h e he
    unfold search at h
    repeat' (first | split at h | simp only [] at h)
    all_goals simp only [Except.ok.injEq, Prod.mk.injEq, reduceCtorEq] at h
    all_goals
      rename_i rescored s1 hres
      have hmem : e ∈ rescored := by
        rw [← h.1] at he
        exact ((sortByRel_perm _ rescored).mem_iff).mp (List.take_subset _ _ he)
      rcases rescoreLoop_filters c now ep mi simulate _ s [] rescored s1 hres e hmem with
        hacc | hgood
      · exact absurd hacc (List.not_mem_nil e)
      · exact hgood

/-- Witness for C8's amended theorem: the concrete simulated search above
succeeds, and its single returned entry satisfies the (absent) episodic and
minimum-importance filters. -/
theorem search_applies_only_filters_witness :
    search ⟨trivialEnv, defaultConfig, noFaults⟩ 0 "q" 1
        { simulate := true, filters := { metadata := [("topic", "y")] } }
        (oneHotState c8Meta) = .ok ([c8Entry], oneHotState c8Meta) ∧
    (∀ e ∈ [c8Entry], (∀ b, (none : Option Bool) = some b → e.meta.episodic = b) ∧
      (∀ m, (none : Option ℝ) = some m → ¬ m = 0 → ¬ e.meta.importance < m)) :=
  ⟨searchC8_eval,
   (search_applies_only_episodic_and_minImportance ⟨trivialEnv, defaultConfig, noFaults⟩
      0 "q" 1 true none none [("topic", "y")] [] (oneHotState c8Meta)).2
      [c8Entry] (oneHotState c8Meta) searchC8_eval⟩

/-! ### Simulated consolidation journals (claim C1) -/

theorem memberLoop_simulate (c : Ctx) (now : ℤ) (clusterId : String)
    (rs : List MemoryRecord) :
    ∀ (s : SCMPState) (acc : List RecordMeta), s.inited = true →
      ∃ out, memberLoop c now clusterId true rs s acc = .ok (out, s) := by
  induction rs with
  | nil => exact fun s acc _ => ⟨acc, rfl⟩
  | cons r rest ih =>
    intro s acc hi
    obtain ⟨t1, hp⟩ := applyPromotion_simulate c now
      (consolidateAttenuate
        { r.access true now with semantic_cluster_id := some clusterId }) s hi
    obtain ⟨t2, hd⟩ := applyDemotion_simulate c now
      (consolidateAttenuate
        { r.access true now with semantic_cluster_id := some clusterId }) s hi
    obtain ⟨out, hm⟩ := ih s (acc ++
      [(consolidateAttenuate
        { r.access true now with semantic_cluster_id := some clusterId }).toJSON]) hi
    refine ⟨out, ?_⟩
    unfold memberLoop
    simp only []
    rw [hp]
    simp only []
    rw [hd]
    simp only []
    exact hm

theorem memberLoop_simulate_exists (c : Ctx) (now : ℤ) (clusterId : String)
    (rs : List MemoryRecord) (s0 : SCMPState) (e0 : JournalEntry) (s : SCMPState)
    (acc : List RecordMeta)
    (hc : s.journalCounter = s0.journalCounter + 1)
    (hmc : s.metaJournalCounter = some (s0.journalCounter + 1))
    (hjs : s.journalStore = jPut s0.journalStore e0)
    (hw : s.warmStore = s0.warmStore) (hcold : s.coldStore = s0.coldStore)
    (hi : s.inited = true) :
    ∃ entry out s', memberLoop c now clusterId true rs s acc = .ok (out, s') ∧
      s'.journalCounter = s0.journalCounter + 1 ∧
      s'.metaJournalCounter = some (s0.journalCounter + 1) ∧
      s'.journalStore = jPut s0.journalStore entry ∧
      s'.warmStore = s0.warmStore ∧ s'.coldStore = s0.coldStore := by
  obtain ⟨out, h⟩ := memberLoop_simulate c now clusterId rs s acc hi
  exact ⟨e0, out, s, h, hc, hmc, hjs, hw, hcold⟩

theorem processCluster_simulate (c : Ctx) (now : ℤ) (rs : List MemoryRecord) (s : SCMPState)
    (hi : s.inited = true) (hp : c.faults.metaPut = false) (hj : c.faults.journalPut = false)
    (h2 : ¬ rs.length < 2) :
    ∃ entry out s', processCluster c now true rs s = .ok (out, s') ∧
      s'.journalCounter = s.journalCounter + 1 ∧
      s'.metaJournalCounter = some (s.journalCounter + 1) ∧
      s'.journalStore = jPut s.journalStore entry ∧
      s'.warmStore = s.warmStore ∧ s'.coldStore = s.coldStore := by
  unfold processCluster
  rw [if_neg h2]
  simp only []
  rw [appendJournal_noFault c now _ s hp hj hi]
  try simp only []
  try simp only [reduceIte]
  try simp only []
  apply memberLoop_simulate_exists c now _ rs s
  any_goals rfl
  any_goals exact hi

/-- C1 (code bug): `consolidate` with `simulate = true` is not side-effect
free — on an initialized instance with two clusterable WARM records and no
faults, the dry run appends a journal entry for the synthesized semantic
record and increments and persists the journal counter
(`_processCluster` journals unconditionally before its `simulate` guard),
while the WARM and COLD stores are left unchanged. -/
theorem consolidate_simulate_journals :
    ∃ out s', consolidate ⟨trivialEnv, defaultConfig, noFaults⟩ 0 true warm2State =
        .ok (out, s') ∧
      warm2State.journalStore.length = 0 ∧ warm2State.journalCounter = 0 ∧
      warm2State.metaJournalCounter = none ∧
      s'.journalCounter = 1 ∧ s'.metaJournalCounter = some 1 ∧
      s'.journalStore.length = 1 ∧
      s'.warmStore = warm2State.warmStore ∧ s'.coldStore = warm2State.coldStore := by
  obtain ⟨entry, out, s', hpc, h1, h2, h3, h4, h5⟩ :=
    processCluster_simulate ⟨trivialEnv, defaultConfig, noFaults⟩ 0 c1Records warm2State
      rfl rfl rfl (by decide)
  have hstage : consolidate ⟨trivialEnv, defaultConfig, noFaults⟩ 0 true warm2State =
      (match (match (match processCluster ⟨trivialEnv, defaultConfig, noFaults⟩ 0 true
              c1Records warm2State with
           | .error e => .error e
           | .ok (u, s1) => .ok (([] : List RecordMeta) ++ u, s1) :
           Except String (List RecordMeta × SCMPState)) with
         | .error e => .error e
         | .ok (u, s1) => .ok (([] : List RecordMeta) ++ u, s1) :
         Except String (List RecordMeta × SCMPState)) with
       | .error e => .error ("Consolidation failed: " ++ e)
       | .ok (allU, s1) => .ok (allU, { s1 with recordsSinceConsolidation := 0 })) := rfl
  refine ⟨[] ++ ([] ++ out), { s' with recordsSinceConsolidation := 0 }, ?_,
    rfl, rfl, rfl, ?_, ?_, ?_, ?_, ?_⟩
  · rw [hstage, hpc]
  · exact h1
  · exact h2
  · show s'.journalStore.length = 1
    rw [h3]
    show (jPut warm2State.journalStore entry).length = 1
    rfl
  · exact h4
  · exact h5

end SCMP
